import Mathlib

set_option maxHeartbeats 1000000

/-!
A verification development for the BasicLM VS Code extension: an HTTP bridge
exposing the VS Code Language Model API through an OpenAI-style protocol
("Protocol A", the /v1/chat/completions endpoint) and an Anthropic-style
protocol ("Protocol B", the /v1/messages endpoint).

The definitions below are shallow embeddings of the pure computation performed
by the source files src/server/RequestHandler.ts, src/server/LMAPIServer.ts
and src/utils/ErrorResponse.ts, together with the revised request handler
contained in the repository (the revision with named SSE events, a
message_delta frame and an input_json_delta tool block, referred to here as
RequestHandlerV2). JavaScript builtins used by that code (JSON.stringify,
JSON.parse, String.prototype.includes, String.prototype.toLowerCase,
Number.prototype.toString) are modelled explicitly.

Machine integers are modelled as Nat/Int; strings as Lean strings.
-/

/-! ## Models of JavaScript string builtins -/

/-- Model of String.prototype.toLowerCase (ASCII case folding). -/
def jsToLower (s : String) : String := String.mk (s.data.map Char.toLower)

/-- Whether the second character list is a leading segment of the first. -/
def strStarts : List Char → List Char → Bool
  | _, [] => true
  | [], _ :: _ => false
  | h :: hs, p :: ps => h == p && strStarts hs ps

/-- Substring search over character lists: the pattern occurs at some
position of the haystack. -/
def strFind : List Char → List Char → Bool
  | [], pat => pat.isEmpty
  | h :: hs, pat => strStarts (h :: hs) pat || strFind hs pat

/-- Model of String.prototype.includes: substring containment. -/
def jsIncludes (s sub : String) : Bool := strFind s.data sub.data

/-- Model of the JavaScript string-or operator a || b on a possibly absent
string: an absent or empty string is falsy. -/
def jsOrString (a : Option String) (b : String) : String :=
  match a with
  | some s => if s = "" then b else s
  | none => b

/-! ## A model of structured JSON values and of JSON.stringify / JSON.parse -/

/-- The opening curly brace character, written via its code point. -/
def lbrace : Char := Char.ofNat 123

/-- The closing curly brace character, written via its code point. -/
def rbrace : Char := Char.ofNat 125

/-- Structured JSON values (numbers restricted to integers, as produced by the
tool-call payloads the server handles). -/
inductive Json where
  | null : Json
  | bool (b : Bool) : Json
  | num (n : Int) : Json
  | str (s : String) : Json
  | arr (elems : List Json) : Json
  | obj (fields : List (String × Json)) : Json

/-- Decimal digit character for a value below ten. -/
def digitChar (n : Nat) : Char := Char.ofNat (48 + n)

/-- Fuel-bounded helper for the decimal digit list of a natural number. -/
def natDigitsAux : Nat → Nat → List Char
  | 0, _ => []
  | f + 1, n =>
    if n < 10 then [digitChar n]
    else natDigitsAux f (n / 10) ++ [digitChar (n % 10)]

/-- Decimal digit list of a natural number, most significant first. -/
def natDigits (n : Nat) : List Char := natDigitsAux (n + 1) n

/-- Decimal rendering of an integer, as JavaScript prints integral numbers. -/
def encInt (n : Int) : List Char :=
  match n with
  | Int.ofNat m => natDigits m
  | Int.negSucc m => '-' :: natDigits (m + 1)

/-- Lower-case hexadecimal digit character for a value below sixteen. -/
def hexDigitChar (n : Nat) : Char :=
  if n < 10 then Char.ofNat (48 + n) else Char.ofNat (87 + n)

/-- JSON string escaping of one character, as performed by JSON.stringify. -/
def escChar (c : Char) : List Char :=
  if c = '"' then ['\\', '"']
  else if c = '\\' then ['\\', '\\']
  else if c = '\x08' then ['\\', 'b']
  else if c = '\x09' then ['\\', 't']
  else if c = '\x0a' then ['\\', 'n']
  else if c = '\x0c' then ['\\', 'f']
  else if c = '\x0d' then ['\\', 'r']
  else if c.toNat < 32 then
    ['\\', 'u', '0', '0', hexDigitChar (c.toNat / 16), hexDigitChar (c.toNat % 16)]
  else [c]

/-- JSON string escaping of a whole string. -/
def escString (s : String) : List Char := s.data.flatMap escChar

mutual

/-- Compact JSON rendering of a value (the output of JSON.stringify with no
spacing), as a character list. -/
def encJson : Json → List Char
  | .num n => encInt n
  | .str s => '"' :: (escString s ++ ['"'])
  | .bool false => ['f', 'a', 'l', 's', 'e']
  | .bool true => ['t', 'r', 'u', 'e']
  | .null => ['n', 'u', 'l', 'l']
  | .arr es => '[' :: encArrItems es
  | .obj fs => lbrace :: encObjItems fs

/-- Rendering of the items of a JSON array, up to the closing bracket. -/
def encArrItems : List Json → List Char
  | [] => [']']
  | e :: es => encJson e ++ encArrTail es

/-- Rendering of the remaining items of a JSON array after the first. -/
def encArrTail : List Json → List Char
  | [] => [']']
  | e :: es => ',' :: (encJson e ++ encArrTail es)

/-- Rendering of the fields of a JSON object, up to the closing brace. -/
def encObjItems : List (String × Json) → List Char
  | [] => [rbrace]
  | f :: fs => encField f ++ encObjTail fs

/-- Rendering of the remaining fields of a JSON object after the first. -/
def encObjTail : List (String × Json) → List Char
  | [] => [rbrace]
  | f :: fs => ',' :: (encField f ++ encObjTail fs)

/-- Rendering of one key/value field of a JSON object. -/
def encField : String × Json → List Char
  | (k, v) => '"' :: (escString k ++ ('"' :: ':' :: encJson v))

end

/-- Model of the JavaScript builtin JSON.stringify on structured values. -/
def jsonStringify (j : Json) : String := String.mk (encJson j)

/-- Decimal digit test on a character, by code point. -/
def isDigitChar (c : Char) : Bool := 48 ≤ c.toNat && c.toNat ≤ 57

/-- Numeric value of a hexadecimal digit character. -/
def hexVal (c : Char) : Nat :=
  if 48 ≤ c.toNat ∧ c.toNat ≤ 57 then c.toNat - 48
  else if 97 ≤ c.toNat ∧ c.toNat ≤ 102 then c.toNat - 87
  else if 65 ≤ c.toNat ∧ c.toNat ≤ 70 then c.toNat - 55
  else 0

/-- Unescaping of a single-character JSON escape code. -/
def escDecode (e : Char) : Char :=
  if e = 'n' then '\x0a'
  else if e = 'r' then '\x0d'
  else if e = 't' then '\x09'
  else if e = 'b' then '\x08'
  else if e = 'f' then '\x0c'
  else e

mutual

/-- Fuel-bounded decoder for the body of a JSON string literal (after the
opening quote), returning the decoded characters and the input remaining after
the closing quote. -/
def decodeStrF : Nat → List Char → Option (List Char × List Char)
  | 0, _ => none
  | _ + 1, [] => none
  | f + 1, c :: rest =>
    if c = '"' then some ([], rest)
    else if c = '\\' then decodeEscF f rest
    else (decodeStrF f rest).map (fun p => (c :: p.1, p.2))

/-- Decoder for a JSON string escape sequence after the backslash. -/
def decodeEscF : Nat → List Char → Option (List Char × List Char)
  | 0, _ => none
  | _ + 1, [] => none
  | f + 1, e :: rest2 =>
    if e = 'u' then decodeEscUF f rest2
    else (decodeStrF f rest2).map (fun p => (escDecode e :: p.1, p.2))

/-- Decoder for the four hex digits of a JSON unicode escape. -/
def decodeEscUF : Nat → List Char → Option (List Char × List Char)
  | 0, _ => none
  | f + 1, a :: b :: c2 :: d :: rest3 =>
    (decodeStrF f rest3).map (fun p =>
      (Char.ofNat (4096 * hexVal a + 256 * hexVal b + 16 * hexVal c2 + hexVal d) :: p.1, p.2))
  | _ + 1, _ => none

end

/-- Greedy decimal digit consumption with an accumulator. -/
def decodeDigits : List Char → Nat → Nat × List Char
  | [], acc => (acc, [])
  | c :: rest, acc =>
    if isDigitChar c then decodeDigits rest (acc * 10 + (c.toNat - 48))
    else (acc, c :: rest)

/-- Decoder for a JSON integer numeral, optionally signed. -/
def decodeNum (cs : List Char) : Option (Json × List Char) :=
  match cs with
  | [] => none
  | c :: rest =>
    if c = '-' then
      match rest with
      | [] => none
      | d :: rest2 =>
        if isDigitChar d then
          let p := decodeDigits (d :: rest2) 0
          some (.num (-(p.1 : Int)), p.2)
        else none
    else if isDigitChar c then
      let p := decodeDigits (c :: rest) 0
      some (.num (p.1 : Int), p.2)
    else none

/-- Literal-completion decoder for the JSON text null after its first
character. -/
def expectNull : List Char → Option (Json × List Char)
  | 'u' :: 'l' :: 'l' :: rest2 => some (.null, rest2)
  | _ => none

/-- Literal-completion decoder for the JSON text true after its first
character. -/
def expectTrue : List Char → Option (Json × List Char)
  | 'r' :: 'u' :: 'e' :: rest2 => some (.bool true, rest2)
  | _ => none

/-- Literal-completion decoder for the JSON text false after its first
character. -/
def expectFalse : List Char → Option (Json × List Char)
  | 'a' :: 'l' :: 's' :: 'e' :: rest2 => some (.bool false, rest2)
  | _ => none

/-- Consume one colon from the input. -/
def expectColon : List Char → Option (List Char)
  | d :: rest3 => if d = ':' then some rest3 else none
  | [] => none

mutual

/-- Fuel-bounded recursive-descent decoder for compact JSON text, the model of
the JavaScript builtin JSON.parse on the texts this development produces. -/
def decodeJson : Nat → List Char → Option (Json × List Char)
  | 0, _ => none
  | _ + 1, [] => none
  | f + 1, c :: rest =>
    if c = 'n' then expectNull rest
    else if c = 't' then expectTrue rest
    else if c = 'f' then expectFalse rest
    else if c = '"' then (decodeStrF f rest).map (fun p => (.str (String.mk p.1), p.2))
    else if c = '[' then decodeArrStart f rest
    else if c = lbrace then decodeObjStart f rest
    else decodeNum (c :: rest)

/-- Decoder for a JSON array after the opening bracket. -/
def decodeArrStart : Nat → List Char → Option (Json × List Char)
  | 0, _ => none
  | _ + 1, [] => none
  | f + 1, d :: rest2 =>
    if d = ']' then some (.arr [], rest2)
    else
      (decodeJson f (d :: rest2)).bind (fun q =>
        (decodeArrTail f q.2).map (fun p => (.arr (q.1 :: p.1), p.2)))

/-- Decoder for a JSON object after the opening brace. -/
def decodeObjStart : Nat → List Char → Option (Json × List Char)
  | 0, _ => none
  | _ + 1, [] => none
  | f + 1, d :: rest2 =>
    if d = rbrace then some (.obj [], rest2)
    else
      (decodeField f (d :: rest2)).bind (fun q =>
        (decodeObjTail f q.2).map (fun p => (.obj (q.1 :: p.1), p.2)))

/-- Decoder for one key/value field of a JSON object. -/
def decodeField : Nat → List Char → Option ((String × Json) × List Char)
  | 0, _ => none
  | _ + 1, [] => none
  | f + 1, c :: rest =>
    if c = '"' then
      (decodeStrF f rest).bind (fun q =>
        (expectColon q.2).bind (fun rest3 =>
          (decodeJson f rest3).map (fun p => ((String.mk q.1, p.1), p.2))))
    else none

/-- Decoder for the remaining items of a JSON array after the first. -/
def decodeArrTail : Nat → List Char → Option (List Json × List Char)
  | 0, _ => none
  | _ + 1, [] => none
  | f + 1, c :: rest =>
    if c = ']' then some ([], rest)
    else if c = ',' then
      (decodeJson f rest).bind (fun q =>
        (decodeArrTail f q.2).map (fun p => (q.1 :: p.1, p.2)))
    else none

/-- Decoder for the remaining fields of a JSON object after the first. -/
def decodeObjTail : Nat → List Char → Option (List (String × Json) × List Char)
  | 0, _ => none
  | _ + 1, [] => none
  | f + 1, c :: rest =>
    if c = rbrace then some ([], rest)
    else if c = ',' then
      (decodeField f rest).bind (fun q =>
        (decodeObjTail f q.2).map (fun p => (q.1 :: p.1, p.2)))
    else none

end

/-- Fuel sufficient for decoding the escaped rendering of a character list. -/
def scost : List Char → Nat
  | [] => 1
  | c :: cs => (escChar c).length + scost cs

mutual

/-- Fuel sufficient for decoding the rendering of a value. -/
def jfuel : Json → Nat
  | .null => 1
  | .bool _ => 1
  | .num _ => 1
  | .str s => 1 + scost s.data
  | .arr [] => 2
  | .arr (e :: es) => 2 + jfuel e + atfuel es
  | .obj [] => 2
  | .obj (f :: fs) => 2 + ffuel f + otfuel fs

/-- Fuel sufficient for decoding the rendering of one object field. -/
def ffuel : String × Json → Nat
  | (k, v) => 1 + scost k.data + jfuel v

/-- Fuel sufficient for decoding an array tail. -/
def atfuel : List Json → Nat
  | [] => 1
  | e :: es => 1 + jfuel e + atfuel es

/-- Fuel sufficient for decoding an object tail. -/
def otfuel : List (String × Json) → Nat
  | [] => 1
  | f :: fs => 1 + ffuel f + otfuel fs

end

/-- Model of the JavaScript builtin JSON.parse restricted to texts that decode
fully; the fuel is bounded by the text length. -/
def jsonParse (s : String) : Option Json :=
  match decodeJson (2 * s.data.length + 1) s.data with
  | some (j, []) => some j
  | _ => none

/-- Field lookup on a JSON object value. -/
def Json.getField : Json → String → Option Json
  | .obj fs, k => (fs.find? (fun f => f.1 == k)).map (fun f => f.2)
  | _, _ => none

/-- Model of Number.prototype.toString on an HTTP status code. -/
def statusCodeString (n : Nat) : String := String.mk (natDigits n)

/-- The numeric value read off a digit list, extending an accumulator. -/
def digitsVal (acc : Nat) (ds : List Char) : Nat :=
  ds.foldl (fun a c => a * 10 + (c.toNat - 48)) acc

/-- True when the input does not begin with a decimal digit. -/
def noDigitHead : List Char → Bool
  | [] => true
  | c :: _ => !isDigitChar c
/-! ## Wire protocol constants (src/constants, as exercised by the tests) -/

/-- Error type string for bad requests. -/
def ERROR_CODES.INVALID_REQUEST : String := "invalid_request_error"

/-- Error type string for missing resources. -/
def ERROR_CODES.NOT_FOUND_ERROR : String := "not_found_error"

/-- Error type string for upstream or internal failures. -/
def ERROR_CODES.API_ERROR : String := "api_error"

/-- Error type string for permission failures. -/
def ERROR_CODES.PERMISSION_ERROR : String := "permission_error"

/-! ## Data model of the abstract capability (the VS Code LM API surface) -/

/-- A discovered chat model: the fields of vscode.LanguageModelChat that the
server reads. -/
structure LanguageModelChat where
  id : String
  family : String
deriving DecidableEq

/-- A message sent to the upstream capability
(vscode.LanguageModelChatMessage). -/
inductive LanguageModelChatMessage where
  | user (content : String)
  | assistant (content : String)
deriving DecidableEq

/-- A tool call produced by the upstream capability
(vscode.LanguageModelToolCallPart): constructor arguments are
(callId, name, input). -/
structure LanguageModelToolCallPart where
  callId : String
  name : String
  input : Json

/-- A tool definition passed to the upstream capability
(vscode.LanguageModelChatTool). -/
structure LanguageModelChatTool where
  name : String
  description : Option String
  inputSchema : Json

/-- One fragment of the upstream response stream: a text part or a tool call
part. -/
inductive ResponseFragment where
  | text (value : String)
  | toolCall (part : LanguageModelToolCallPart)

/-! ## Wire request shapes (parsed JSON bodies; an absent string field is
modelled by the empty string, which JavaScript treats as falsy exactly like an
absent field in every check the handlers perform) -/

/-- One part of a multi-part wire message; only the type tag and the text
payload are read by the converters embedded here. -/
structure WirePart where
  type : String
  text : String

/-- The content of a wire message: a plain string, an array of typed parts, or
any other JSON value. -/
inductive WireContent where
  | str (s : String)
  | parts (ps : List WirePart)
  | other

/-- The messages field of a parsed request body: a JSON array or some other
(truthy, non-array) value; an absent field is none. -/
inductive MessagesField (α : Type) where
  | arrOf (msgs : List α) : MessagesField α
  | nonArray : MessagesField α

/-- An OpenAI wire message as read by convertOpenAIMessagesToVSCode. -/
structure OpenAIMessage where
  role : String
  content : WireContent

/-- An Anthropic wire message as read by convertAnthropicMessagesToVSCode. -/
structure AnthropicMessage where
  role : String
  content : WireContent

/-- The function part of an OpenAI tool definition. -/
structure OpenAIToolFunction where
  name : String
  description : Option String
  parameters : Json

/-- An OpenAI wire tool definition. -/
structure OpenAITool where
  function : OpenAIToolFunction

/-- An Anthropic wire tool definition. -/
structure AnthropicTool where
  name : String
  description : Option String
  input_schema : Json

/-- A parsed OpenAI chat-completions request (the fields the handler reads). -/
structure OpenAIChatCompletionRequest where
  model : String
  messages : Option (MessagesField OpenAIMessage)
  stream : Bool
  tools : Option (List OpenAITool)

/-- A parsed Anthropic messages request (the fields the handler reads). -/
structure AnthropicMessageRequest where
  model : String
  messages : Option (MessagesField AnthropicMessage)
  max_tokens : Option Int
  system : String
  stream : Bool
  tools : Option (List AnthropicTool)

/-- The function part of an OpenAI wire tool call. -/
structure OpenAIFunctionCall where
  name : String
  arguments : String
deriving DecidableEq

/-- An OpenAI wire tool call; its type field is always the literal
"function". -/
structure OpenAIToolCall where
  id : String
  type : String
  function : OpenAIFunctionCall
deriving DecidableEq

/-- An Anthropic tool_use content block; its type field is always the literal
"tool_use". -/
structure AnthropicToolUseBlock where
  id : String
  name : String
  input : Json

/-- An Anthropic response content block: a text block or a tool_use block. -/
inductive AnthropicContentBlock where
  | text (text : String)
  | toolUse (block : AnthropicToolUseBlock)
/-! ## Model selection (src/server/RequestHandler.ts selectModel; the revised
handler contains the identical function) -/

/-- Embeds selectModel: first an exact match on the model id, then the first
model whose truthy (non-empty) family occurs case-insensitively inside the
requested name, else no match. -/
def RequestHandler.selectModel (models : List LanguageModelChat)
    (requestedModel : String) : Option LanguageModelChat :=
  match models.find? (fun m => m.id == requestedModel) with
  | some m => some m
  | none =>
    models.find? (fun m =>
      !m.family.isEmpty && jsIncludes (jsToLower requestedModel) (jsToLower m.family))

/-! ## Message converters (src/server/RequestHandler.ts) -/

/-- The multi-part flattening shared by both converters: keep the text-typed
parts, project their text, and join with a newline. -/
def flattenTextParts (ps : List WirePart) : String :=
  String.intercalate "\n" ((ps.filter (fun p => p.type == "text")).map (fun p => p.text))

/-- The content string a converter computes from a wire content value: the
string itself, the flattened text parts of an array, and the empty string for
anything else. -/
def contentText (content : WireContent) : String :=
  match content with
  | .str s => s
  | .parts ps => flattenTextParts ps
  | .other => ""

/-- Embeds convertOpenAIMessagesToVSCode: every message becomes a user
message; a system-role message gets the literal marker prefix. -/
def RequestHandler.convertOpenAIMessagesToVSCode (messages : List OpenAIMessage) :
    List LanguageModelChatMessage :=
  messages.map (fun msg =>
    let content := contentText msg.content
    let content := if msg.role == "system" then "[SYSTEM] " ++ content else content
    LanguageModelChatMessage.user content)

/-- Embeds convertAnthropicMessagesToVSCode: a truthy top-level system field is
prepended as a synthetic first user message with the marker prefix; each
message is converted with the same flattening, user roles to user messages and
all other roles to assistant messages. -/
def RequestHandler.convertAnthropicMessagesToVSCode (messages : List AnthropicMessage)
    (system : String) : List LanguageModelChatMessage :=
  (if system ≠ "" then [LanguageModelChatMessage.user ("[SYSTEM] " ++ system)] else []) ++
    messages.map (fun msg =>
      let content := contentText msg.content
      if msg.role == "user" then LanguageModelChatMessage.user content
      else LanguageModelChatMessage.assistant content)

/-! ## Tool definition converters -/

/-- Embeds convertOpenAIToolsToVSCode (src/server/RequestHandler.ts): an absent
tools field yields the empty list; otherwise name, description and parameters
are copied through unchanged. -/
def RequestHandler.convertOpenAIToolsToVSCode (tools : Option (List OpenAITool)) :
    List LanguageModelChatTool :=
  match tools with
  | none => []
  | some ts =>
    ts.map (fun tool =>
      { name := tool.function.name
        description := tool.function.description
        inputSchema := tool.function.parameters })

/-- Embeds convertAnthropicToolsToVSCode (src/server/RequestHandler.ts): name,
description and input_schema copied through unchanged. -/
def RequestHandler.convertAnthropicToolsToVSCode (tools : Option (List AnthropicTool)) :
    List LanguageModelChatTool :=
  match tools with
  | none => []
  | some ts =>
    ts.map (fun tool =>
      { name := tool.name
        description := tool.description
        inputSchema := tool.input_schema })

/-- Embeds convertAnthropicToolsToVSCode of the revised handler: the
description defaults through the or-chain
description || name || "no description available". -/
def RequestHandlerV2.convertAnthropicToolsToVSCode (tools : Option (List AnthropicTool)) :
    List LanguageModelChatTool :=
  match tools with
  | none => []
  | some ts =>
    ts.map (fun tool =>
      { name := tool.name
        description := some (jsOrString tool.description
          (if tool.name = "" then "no description available" else tool.name))
        inputSchema := tool.input_schema })

/-! ## Tool call converters -/

/-- Embeds convertVSCodeToolCallsToOpenAI: id from callId, the literal type
"function", and the input serialized by JSON.stringify as the arguments
string. An absent array yields the empty list. -/
def convertVSCodeToolCallsToOpenAI (toolCalls : Option (List LanguageModelToolCallPart)) :
    List OpenAIToolCall :=
  match toolCalls with
  | none => []
  | some calls =>
    calls.map (fun call =>
      { id := call.callId
        type := "function"
        function := { name := call.name, arguments := jsonStringify call.input } })

/-- Embeds convertVSCodeToolCallsToAnthropic (identical in both handler
revisions): a tool_use block with id from callId, the name, and the input kept
as a JSON value. -/
def convertVSCodeToolCallsToAnthropic (toolCalls : Option (List LanguageModelToolCallPart)) :
    List AnthropicToolUseBlock :=
  match toolCalls with
  | none => []
  | some calls =>
    calls.map (fun call => { id := call.callId, name := call.name, input := call.input })

/-- Embeds the tool_use part handler of the revised handler's
convertAnthropicMessagesToVSCode dispatch table: reading a wire tool_use block
back into a LanguageModelToolCallPart with constructor arguments
(part.id, part.name, part.input). -/
def RequestHandlerV2.toolUsePartHandler (part : AnthropicToolUseBlock) :
    LanguageModelToolCallPart :=
  { callId := part.id, name := part.name, input := part.input }

/-! ## Token estimation -/

/-- Embeds estimateTokens applied to the single assembled assistant message
with string content, whose joined text is the content itself:
Math.ceil(content.length / 4). -/
def estimateTokensOfText (text : String) : Nat := (text.length + 3) / 4

/-! ## Draining the upstream fragment stream (the for-await loop shared by the
non-streaming handlers: text parts are concatenated onto the content
accumulator, tool call parts are pushed onto the tool call array) -/

/-- The fold performed by the response loops: accumulated content string and
tool call array, in arrival order. -/
def drainFragments (stream : List ResponseFragment) :
    String × List LanguageModelToolCallPart :=
  stream.foldl
    (fun acc part =>
      match part with
      | .text s => (acc.1 ++ s, acc.2)
      | .toolCall c => (acc.1, acc.2 ++ [c]))
    ("", [])

/-- The text fragments of a stream, in order. -/
def fragmentTexts (stream : List ResponseFragment) : List String :=
  stream.filterMap (fun part =>
    match part with
    | .text s => some s
    | .toolCall _ => none)

/-- The tool call fragments of a stream, in order. -/
def fragmentToolCalls (stream : List ResponseFragment) : List LanguageModelToolCallPart :=
  stream.filterMap (fun part =>
    match part with
    | .text _ => none
    | .toolCall c => some c)

/-! ## Non-streaming response assemblers -/

/-- The assembled OpenAI message: the role, the content-or-null, and the
tool_calls field only set when tool calls exist. -/
structure OpenAIAssembledMessage where
  role : String
  content : Option String
  tool_calls : Option (List OpenAIToolCall)
deriving DecidableEq

/-- The observable parts of the assembled OpenAI chat.completion body. -/
structure OpenAICompletionOut where
  message : OpenAIAssembledMessage
  finish_reason : String
  completion_tokens : Nat

/-- Embeds handleOpenAINonStreamingResponse (src/server/RequestHandler.ts
lines 486-560): drain the stream, convert the tool calls, null out empty
content (content || null), attach tool_calls and the finish reason
tool_calls / stop, and estimate completion tokens from the content. -/
def RequestHandler.handleOpenAINonStreamingResponse (stream : List ResponseFragment) :
    OpenAICompletionOut :=
  let r := drainFragments stream
  let content := r.1
  let openAIToolCalls := convertVSCodeToolCallsToOpenAI (some r.2)
  { message :=
      { role := "assistant"
        content := if content = "" then none else some content
        tool_calls := if openAIToolCalls.length > 0 then some openAIToolCalls else none }
    finish_reason := if openAIToolCalls.length > 0 then "tool_calls" else "stop"
    completion_tokens := estimateTokensOfText content }

/-- The observable parts of the assembled Anthropic message body. -/
structure AnthropicMessageOut where
  content : List AnthropicContentBlock
  stop_reason : String
  output_tokens : Nat

/-- Embeds handleAnthropicNonStreamingResponse (src/server/RequestHandler.ts
lines 690-764): drain the stream, push one text block only when the content is
non-empty, append all tool_use blocks, and set stop_reason tool_use /
end_turn. -/
def RequestHandler.handleAnthropicNonStreamingResponse (stream : List ResponseFragment) :
    AnthropicMessageOut :=
  let r := drainFragments stream
  let content := r.1
  let anthropicToolCalls := convertVSCodeToolCallsToAnthropic (some r.2)
  { content :=
      (if content ≠ "" then [AnthropicContentBlock.text content] else []) ++
        anthropicToolCalls.map AnthropicContentBlock.toolUse
    stop_reason := if anthropicToolCalls.length > 0 then "tool_use" else "end_turn"
    output_tokens := estimateTokensOfText content }

/-- Embeds handleAnthropicResponse of the revised handler, whose assembled
content blocks, stop_reason and output-token estimate coincide with the
earlier revision's handleAnthropicNonStreamingResponse. -/
def RequestHandlerV2.handleAnthropicResponse (stream : List ResponseFragment) :
    AnthropicMessageOut :=
  let r := drainFragments stream
  let content := r.1
  let anthropicToolCalls := convertVSCodeToolCallsToAnthropic (some r.2)
  { content :=
      (if content ≠ "" then [AnthropicContentBlock.text content] else []) ++
        anthropicToolCalls.map AnthropicContentBlock.toolUse
    stop_reason := if anthropicToolCalls.length > 0 then "tool_use" else "end_turn"
    output_tokens := estimateTokensOfText content }

/-! ## Streaming encoders -/

/-- One OpenAI SSE chunk, as written by handleOpenAIStreamingResponse: a text
delta (carrying role: assistant exactly on the first text chunk), the buffered
tool-call delta, the final chunk with the finish reason, and the literal
stream-end sentinel. -/
inductive OpenAIStreamChunk where
  | delta (hasRole : Bool) (content : String)
  | toolCallsDelta (tool_calls : List OpenAIToolCall)
  | finishChunk (finish_reason : String)
  | done
deriving DecidableEq

/-- The for-await loop of handleOpenAIStreamingResponse: text parts are written
as delta chunks as they arrive (chunkIndex counts text chunks), tool call
parts are buffered. Returns the written chunks, the accumulated content and
the buffered tool calls. -/
def openAIStreamLoop :
    List ResponseFragment → Nat →
      List OpenAIStreamChunk × String × List LanguageModelToolCallPart
  | [], _ => ([], "", [])
  | .text s :: rest, chunkIndex =>
    let r := openAIStreamLoop rest (chunkIndex + 1)
    (.delta (chunkIndex == 0) s :: r.1, s ++ r.2.1, r.2.2)
  | .toolCall c :: rest, chunkIndex =>
    let r := openAIStreamLoop rest chunkIndex
    (r.1, r.2.1, c :: r.2.2)

/-- Embeds handleOpenAIStreamingResponse (src/server/RequestHandler.ts lines
382-484): the streamed chunk sequence. -/
def RequestHandler.handleOpenAIStreamingResponse (stream : List ResponseFragment) :
    List OpenAIStreamChunk :=
  let r := openAIStreamLoop stream 0
  let openAIToolCalls := convertVSCodeToolCallsToOpenAI (some r.2.2)
  r.1 ++
    (if openAIToolCalls.length > 0 then [OpenAIStreamChunk.toolCallsDelta openAIToolCalls]
      else []) ++
    [OpenAIStreamChunk.finishChunk (if openAIToolCalls.length > 0 then "tool_calls" else "stop"),
     OpenAIStreamChunk.done]

/-- One event payload of the revised Anthropic streaming encoder. The tool
block start carries an empty input object on the wire; the block's full input
JSON is carried by the input_json_delta payload. -/
inductive AnthropicStreamEvent where
  | messageStart
  | contentBlockStartText (index : Nat)
  | contentBlockDeltaText (index : Nat) (text : String)
  | contentBlockStartToolUse (index : Nat) (id name : String)
  | contentBlockDeltaInputJson (index : Nat) (inputJson : String)
  | contentBlockStop (index : Nat)
  | messageDelta (stop_reason : String) (output_tokens : Nat)
  | messageStop
deriving DecidableEq

/-- One SSE frame of the revised Anthropic streaming encoder: the event-name
line and the data payload written together by consecutive res.write calls. -/
structure SSEFrame where
  event : String
  data : AnthropicStreamEvent
deriving DecidableEq

/-- The for-await loop of the revised handleAnthropicStreamingResponse: text
parts are written as content_block_delta frames at the current (text) block
index, tool call parts are buffered. Returns the written frames, the
accumulated content and the buffered tool calls. -/
def anthStreamLoop :
    List ResponseFragment → Nat →
      List SSEFrame × String × List LanguageModelToolCallPart
  | [], _ => ([], "", [])
  | .text s :: rest, blockIndex =>
    let r := anthStreamLoop rest blockIndex
    (⟨"content_block_delta", .contentBlockDeltaText blockIndex s⟩ :: r.1, s ++ r.2.1, r.2.2)
  | .toolCall c :: rest, blockIndex =>
    let r := anthStreamLoop rest blockIndex
    (r.1, r.2.1, c :: r.2.2)

/-- The per-tool-call frames of the revised Anthropic streaming encoder: for
each buffered tool call, a content_block_start, one input_json_delta carrying
the full JSON.stringify of the input, and a content_block_stop, with the block
index incremented after each block. -/
def anthToolBlocks : Nat → List AnthropicToolUseBlock → List SSEFrame
  | _, [] => []
  | blockIndex, toolCall :: rest =>
    ⟨"content_block_start", .contentBlockStartToolUse blockIndex toolCall.id toolCall.name⟩ ::
    ⟨"content_block_delta",
      .contentBlockDeltaInputJson blockIndex (jsonStringify toolCall.input)⟩ ::
    ⟨"content_block_stop", .contentBlockStop blockIndex⟩ ::
    anthToolBlocks (blockIndex + 1) rest

/-- Embeds the revised handleAnthropicStreamingResponse: message_start, the
text block opened at index 0, the streamed text deltas, the text block close,
the tool blocks at indices from 1, a message_delta carrying the final stop
reason and the output-token estimate, and message_stop; every event is one
named SSE frame. -/
def RequestHandlerV2.handleAnthropicStreamingResponse (stream : List ResponseFragment) :
    List SSEFrame :=
  let r := anthStreamLoop stream 0
  let content := r.2.1
  let anthropicToolCalls := convertVSCodeToolCallsToAnthropic (some r.2.2)
  ⟨"message_start", .messageStart⟩ ::
  ⟨"content_block_start", .contentBlockStartText 0⟩ ::
  (r.1 ++
    (⟨"content_block_stop", .contentBlockStop 0⟩ ::
      (anthToolBlocks 1 anthropicToolCalls ++
        [⟨"message_delta",
           .messageDelta (if anthropicToolCalls.length > 0 then "tool_use" else "end_turn")
             (estimateTokensOfText content)⟩,
         ⟨"message_stop", .messageStop⟩])))

/-! ## Stream observation helpers (used to state the claims) -/

/-- The concatenation of the text deltas of an OpenAI chunk stream. -/
def streamedTextOpenAI (chunks : List OpenAIStreamChunk) : String :=
  String.join (chunks.filterMap (fun ch =>
    match ch with
    | .delta _ s => some s
    | _ => none))

/-- The finish reasons carried by an OpenAI chunk stream, in order. -/
def streamedFinishOpenAI (chunks : List OpenAIStreamChunk) : List String :=
  chunks.filterMap (fun ch =>
    match ch with
    | .finishChunk r => some r
    | _ => none)

/-- The concatenation of the text deltas of an Anthropic SSE frame stream. -/
def streamedTextAnthropic (frames : List SSEFrame) : String :=
  String.join (frames.filterMap (fun fr =>
    match fr.data with
    | .contentBlockDeltaText _ s => some s
    | _ => none))

/-- The stop reasons carried by the message_delta frames of an Anthropic SSE
frame stream, in order. -/
def streamedStopAnthropic (frames : List SSEFrame) : List String :=
  frames.filterMap (fun fr =>
    match fr.data with
    | .messageDelta r _ => some r
    | _ => none)

/-- The block indices carried by the content_block_start frames of an
Anthropic SSE frame stream, in order. -/
def streamedStartIndices (frames : List SSEFrame) : List Nat :=
  frames.filterMap (fun fr =>
    match fr.data with
    | .contentBlockStartText i => some i
    | .contentBlockStartToolUse i _ _ => some i
    | _ => none)

/-- The text concatenated over the text blocks of an assembled Anthropic
content block list. -/
def textOfBlocks (blocks : List AnthropicContentBlock) : String :=
  String.join (blocks.filterMap (fun b =>
    match b with
    | .text s => some s
    | .toolUse _ => none))

/-! ## Error body renderers -/

/-- Embeds UnifiedErrorResponse.sendError (src/utils/ErrorResponse.ts): the
JSON body written when headers are not yet sent, for both protocols alike:
an error object with message, the error type, the stringified status code,
and the param and requestId fields only when truthy. -/
def UnifiedErrorResponse.sendErrorBody (statusCode : Nat) (message type_ : String)
    (requestId param : Option String) : Json :=
  Json.obj [("error", Json.obj (
    [("message", Json.str message),
     ("type", Json.str type_),
     ("code", Json.str (statusCodeString statusCode))] ++
    (match param with
     | some p => if p = "" then [] else [("param", Json.str p)]
     | none => []) ++
    (match requestId with
     | some r => if r = "" then [] else [("requestId", Json.str r)]
     | none => [])))]

/-- Embeds UnifiedErrorResponse.sendError including the headers-sent guard:
no body is written once headers were sent. -/
def UnifiedErrorResponse.sendError (headersSent : Bool) (statusCode : Nat)
    (message type_ : String) (requestId param : Option String) : Option Json :=
  if headersSent then none
  else some (UnifiedErrorResponse.sendErrorBody statusCode message type_ requestId param)

/-- Embeds LMAPIServer.sendError (src/server/LMAPIServer.ts lines 214-228):
an error object with message, the fixed type api_error, the numeric (not
stringified) status code, and the requestId when present. -/
def LMAPIServer.sendErrorBody (statusCode : Nat) (message : String)
    (requestId : Option String) : Json :=
  Json.obj [("error", Json.obj (
    [("message", Json.str message),
     ("type", Json.str "api_error"),
     ("code", Json.num (statusCode : Int))] ++
    (match requestId with
     | some r => [("requestId", Json.str r)]
     | none => [])))]

set_option linter.unusedVariables false in
/-- Embeds the default arm of LMAPIServer.routeRequest (lines 163-206): an
unknown pathname is answered by sendError 404 "Endpoint not found"; the body
does not inspect the pathname. -/
def LMAPIServer.routeRequestUnknownBody (pathname : String) (requestId : String) : Json :=
  LMAPIServer.sendErrorBody 404 "Endpoint not found" (some requestId)

/-- Embeds sendError of the revised request handler: a top-level type "error"
marker, an error object with message, the error type and the stringified
status code, and a top-level request_id. -/
def RequestHandlerV2.sendErrorBody (statusCode : Nat) (message type_ : String)
    (requestId : String) : Json :=
  Json.obj
    [("type", Json.str "error"),
     ("error", Json.obj
       [("message", Json.str message),
        ("type", Json.str type_),
        ("code", Json.str (statusCodeString statusCode))]),
     ("request_id", Json.str requestId)]

/-! ## Handler pipelines up to the upstream call (validation, discovery and
model selection; the body has already been read and JSON-parsed) -/

/-- The observable outcome of a handler pipeline prefix: either an error
response was sent before any upstream request, or the upstream sendRequest is
reached for the selected model. -/
inductive HandlerOutcome where
  | errorSent (statusCode : Nat) (errType : String) (message : String)
  | upstreamRequest (modelId : String) (stream : Bool)
deriving DecidableEq

/-- The validation test of handleOpenAIChatCompletions:
!request.model || !request.messages || !Array.isArray(request.messages). -/
def openAIRequestValid (request : OpenAIChatCompletionRequest) : Bool :=
  !(request.model == "") &&
  (match request.messages with
   | some (.arrOf _) => true
   | _ => false)

/-- The validation test of handleAnthropicMessages: !request.model ||
!request.messages || !Array.isArray(request.messages) || !request.max_tokens;
a max_tokens equal to 0 is falsy and fails the test. -/
def anthropicRequestValid (request : AnthropicMessageRequest) : Bool :=
  !(request.model == "") &&
  (match request.messages with
   | some (.arrOf _) => true
   | _ => false) &&
  (match request.max_tokens with
   | some n => !(n == 0)
   | none => false)

/-- Embeds handleOpenAIChatCompletions (src/server/RequestHandler.ts lines
22-97) up to the upstream sendRequest: method check, validation, model
discovery, and model selection with the invalid_request 400 no-match
convention. -/
def RequestHandler.handleOpenAIChatCompletionsPre (method : String)
    (request : OpenAIChatCompletionRequest) (models : List LanguageModelChat) :
    HandlerOutcome :=
  if method ≠ "POST" then
    .errorSent 405 ERROR_CODES.INVALID_REQUEST "method not allowed"
  else if !openAIRequestValid request then
    .errorSent 400 ERROR_CODES.INVALID_REQUEST "invalid request: model and messages are required"
  else if models.length = 0 then
    .errorSent 503 ERROR_CODES.API_ERROR "no language models available"
  else
    match RequestHandler.selectModel models request.model with
    | none =>
      .errorSent 400 ERROR_CODES.INVALID_REQUEST
        ("model \"" ++ request.model ++ "\" not available")
    | some model => .upstreamRequest model.id request.stream

/-- Embeds handleAnthropicMessages of the revised handler up to the upstream
sendRequest: method check, validation, model discovery, and model selection
with the not_found 404 no-match convention. -/
def RequestHandlerV2.handleAnthropicMessagesPre (method : String)
    (request : AnthropicMessageRequest) (models : List LanguageModelChat) :
    HandlerOutcome :=
  if method ≠ "POST" then
    .errorSent 405 ERROR_CODES.INVALID_REQUEST "method not allowed"
  else if !anthropicRequestValid request then
    .errorSent 400 ERROR_CODES.INVALID_REQUEST
      "invalid request: model, messages, and max_tokens are required"
  else if models.length = 0 then
    .errorSent 503 ERROR_CODES.API_ERROR "no language models available"
  else
    match RequestHandler.selectModel models request.model with
    | none =>
      .errorSent 404 ERROR_CODES.NOT_FOUND_ERROR
        ("model \"" ++ request.model ++ "\" not found")
    | some model => .upstreamRequest model.id request.stream

/-! ## Concrete example inputs (used to instantiate the universally quantified
statements at closed values) -/

/-- A one-model discovery result. -/
def exModels : List LanguageModelChat := [{ id := "gpt-4", family := "gpt-4" }]

/-- A syntactically valid OpenAI request naming an unresolvable model. -/
def exOpenAIRequest : OpenAIChatCompletionRequest :=
  { model := "claude-3", messages := some (.arrOf []), stream := false, tools := none }

/-- A syntactically valid Anthropic request naming an unresolvable model. -/
def exAnthropicRequest : AnthropicMessageRequest :=
  { model := "claude-3", messages := some (.arrOf []), max_tokens := some 16,
    system := "", stream := false, tools := none }

/-- An Anthropic request whose max_tokens field is present but zero. -/
def exAnthropicRequestZeroMax : AnthropicMessageRequest :=
  { model := "gpt-4", messages := some (.arrOf []), max_tokens := some 0,
    system := "", stream := false, tools := none }

/-- A concrete abstract tool call. -/
def exToolCall : LanguageModelToolCallPart :=
  { callId := "call_1", name := "get_weather", input := Json.null }

/-- A concrete Anthropic tool list whose only tool has no description. -/
def exAnthTools : List AnthropicTool :=
  [{ name := "get_weather", description := none, input_schema := Json.null }]

/-- A concrete OpenAI tool list whose only tool has no description. -/
def exOpenAITools : List OpenAITool :=
  [{ function := { name := "get_weather", description := none, parameters := Json.null } }]

/-- A concrete OpenAI message list whose only message is a system message. -/
def exOpenAIMessages : List OpenAIMessage :=
  [{ role := "system", content := .str "be nice" }]
/-! ## Correctness of the JSON model: JSON.parse recovers exactly what
JSON.stringify wrote -/

theorem charToNatOfNat (n : Nat) (h : n < 55296) : (Char.ofNat n).toNat = n := by
  have hv : n.isValidChar := Or.inl h
  unfold Char.ofNat
  rw [dif_pos hv]
  simp [Char.ofNatAux, Char.toNat, UInt32.toNat, BitVec.ofNatLt]

theorem toNat_digitChar (k : Nat) (h : k < 10) : (digitChar k).toNat = 48 + k := by
  unfold digitChar
  exact charToNatOfNat _ (by omega)

theorem isDigitChar_digitChar (k : Nat) (h : k < 10) : isDigitChar (digitChar k) = true := by
  simp [isDigitChar, toNat_digitChar k h]
  omega

theorem natDigitsAux_congr : ∀ f g n, n < f → n < g → natDigitsAux f n = natDigitsAux g n := by
  intro f
  induction f with
  | zero => omega
  | succ f ih =>
    intro g n hf hg
    match g, hg with
    | g + 1, hg =>
      simp only [natDigitsAux]
      by_cases h : n < 10
      · simp [h]
      · simp only [h, if_false]
        rw [ih g (n / 10) (by omega) (by omega)]

theorem natDigits_eq (n : Nat) :
    natDigits n = if n < 10 then [digitChar n] else natDigits (n / 10) ++ [digitChar (n % 10)] := by
  unfold natDigits
  conv_lhs => rw [natDigitsAux]
  by_cases h : n < 10
  · simp [h]
  · simp only [h, if_false]
    rw [natDigitsAux_congr n (n / 10 + 1) (n / 10) (by omega) (by omega)]

theorem natDigits_ne_nil (n : Nat) : natDigits n ≠ [] := by
  rw [natDigits_eq]
  by_cases h : n < 10 <;> simp [h]

theorem natDigits_all_digits (n : Nat) : ∀ c ∈ natDigits n, isDigitChar c = true := by
  induction n using Nat.strong_induction_on with
  | _ n ih =>
    rw [natDigits_eq]
    by_cases h : n < 10
    · simp only [h, if_true, List.mem_singleton]
      rintro c rfl
      exact isDigitChar_digitChar n h
    · simp only [h, if_false, List.mem_append, List.mem_singleton]
      rintro c (hc | rfl)
      · exact ih (n / 10) (by omega) c hc
      · exact isDigitChar_digitChar (n % 10) (by omega)

theorem digitsVal_natDigits (n : Nat) : ∀ acc, digitsVal acc (natDigits n) = acc * 10 ^ (natDigits n).length + n := by
  induction n using Nat.strong_induction_on with
  | _ n ih =>
    intro acc
    rw [natDigits_eq]
    by_cases h : n < 10
    · simp [h, digitsVal, toNat_digitChar n h]
    · simp only [h, if_false]
      have happ : digitsVal acc (natDigits (n / 10) ++ [digitChar (n % 10)]) =
          digitsVal (digitsVal acc (natDigits (n / 10))) [digitChar (n % 10)] := by
        simp [digitsVal, List.foldl_append]
      rw [happ, ih (n / 10) (by omega) acc]
      simp only [digitsVal, List.foldl_cons, List.foldl_nil, List.length_append,
        List.length_singleton]
      rw [toNat_digitChar (n % 10) (by omega)]
      have : acc * 10 ^ ((natDigits (n / 10)).length + 1) = acc * 10 ^ (natDigits (n / 10)).length * 10 := by
        rw [pow_succ]
        ring
      omega

theorem decodeDigits_append (ds : List Char) (hds : ∀ c ∈ ds, isDigitChar c = true) :
    ∀ acc rest, noDigitHead rest = true →
      decodeDigits (ds ++ rest) acc = (digitsVal acc ds, rest) := by
  induction ds with
  | nil =>
    intro acc rest hrest
    match rest, hrest with
    | [], _ => simp [decodeDigits, digitsVal]
    | c :: rest2, hrest =>
      simp only [noDigitHead, Bool.not_eq_true'] at hrest
      simp [decodeDigits, hrest, digitsVal]
  | cons d ds ih =>
    intro acc rest hrest
    have hd : isDigitChar d = true := hds d (List.mem_cons_self d ds)
    simp only [List.cons_append, decodeDigits, hd, if_true, List.append_eq]
    rw [ih (fun c hc => hds c (List.mem_cons_of_mem d hc)) _ rest hrest]
    simp [digitsVal]

theorem decodeNum_encInt (n : Int) (rest : List Char) (hrest : noDigitHead rest = true) :
    decodeNum (encInt n ++ rest) = some (.num n, rest) := by
  match n with
  | Int.ofNat m =>
    have hne := natDigits_ne_nil m
    match hnd : natDigits m with
    | [] => exact absurd hnd hne
    | d :: ds =>
      have hd : isDigitChar d = true := by
        have := natDigits_all_digits m
        rw [hnd] at this
        exact this d (List.mem_cons_self d ds)
      have hdm : d ≠ '-' := by
        intro hEq
        rw [hEq] at hd
        simp [isDigitChar] at hd
      simp only [encInt, hnd, List.cons_append, decodeNum, hdm, if_false, hd, if_true]
      rw [← List.cons_append, ← hnd]
      rw [decodeDigits_append (natDigits m) (natDigits_all_digits m) 0 rest hrest]
      have := digitsVal_natDigits m 0
      simp only [Nat.zero_mul, Nat.zero_add] at this
      simp [this]
  | Int.negSucc m =>
    have hne := natDigits_ne_nil (m + 1)
    match hnd : natDigits (m + 1) with
    | [] => exact absurd hnd hne
    | d :: ds =>
      have hd : isDigitChar d = true := by
        have := natDigits_all_digits (m + 1)
        rw [hnd] at this
        exact this d (List.mem_cons_self d ds)
      simp only [encInt, hnd, List.cons_append, decodeNum, if_true]
      have hm : ('-' : Char) = '-' := rfl
      simp only [if_pos hm, hd, if_true]
      rw [← List.cons_append, ← hnd]
      rw [decodeDigits_append (natDigits (m + 1)) (natDigits_all_digits (m + 1)) 0 rest hrest]
      have hval : digitsVal 0 (natDigits (m + 1)) = m + 1 := by
        simpa using digitsVal_natDigits (m + 1) 0
      simp only [hval]
      have hneg : (-((m + 1 : Nat) : Int)) = Int.negSucc m := by
        rw [Int.negSucc_eq]
        push_cast
        ring
      rw [hneg]

theorem hexVal_hexDigitChar (k : Nat) (h : k < 16) : hexVal (hexDigitChar k) = k := by
  unfold hexDigitChar hexVal
  by_cases h10 : k < 10
  · rw [if_pos h10, charToNatOfNat (48 + k) (by omega)]
    rw [if_pos (by omega)]
    omega
  · rw [if_neg h10, charToNatOfNat (87 + k) (by omega)]
    rw [if_neg (by omega), if_pos (by omega)]
    omega

theorem decodeStrF_esc (s : List Char) :
    ∀ f rest, scost s ≤ f → decodeStrF f (s.flatMap escChar ++ ('"' :: rest)) = some (s, rest) := by
  induction s with
  | nil =>
    intro f rest hf
    have hf1 : 1 ≤ f := by simpa [scost] using hf
    obtain ⟨f1, rfl⟩ : ∃ g, f = g + 1 := ⟨f - 1, by omega⟩
    simp only [List.flatMap_nil, List.nil_append]
    rw [decodeStrF]
    simp
  | cons c s ih =>
    intro f rest hf
    simp only [scost] at hf
    rw [List.flatMap_cons, List.append_assoc]
    by_cases h1 : c = '"'
    · subst h1
      rw [show escChar '"' = ['\\', '"'] from rfl] at hf ⊢
      simp only [List.length_cons, List.length_nil] at hf
      obtain ⟨f1, rfl⟩ : ∃ g, f = g + 1 := ⟨f - 1, by omega⟩
      simp only [List.cons_append, List.nil_append]
      rw [decodeStrF, if_neg (by decide : ¬('\\' : Char) = '"'), if_pos rfl]
      obtain ⟨f2, rfl⟩ : ∃ g, f1 = g + 1 := ⟨f1 - 1, by omega⟩
      rw [decodeEscF, if_neg (by decide : ¬('"' : Char) = 'u')]
      rw [ih f2 rest (by omega)]
      rfl
    · by_cases h2 : c = '\\'
      · subst h2
        rw [show escChar '\\' = ['\\', '\\'] from rfl] at hf ⊢
        simp only [List.length_cons, List.length_nil] at hf
        obtain ⟨f1, rfl⟩ : ∃ g, f = g + 1 := ⟨f - 1, by omega⟩
        simp only [List.cons_append, List.nil_append]
        rw [decodeStrF, if_neg (by decide : ¬('\\' : Char) = '"'), if_pos rfl]
        obtain ⟨f2, rfl⟩ : ∃ g, f1 = g + 1 := ⟨f1 - 1, by omega⟩
        rw [decodeEscF, if_neg (by decide : ¬('\\' : Char) = 'u')]
        rw [ih f2 rest (by omega)]
        rfl
      · have hgen : ∀ (e : Char), escChar c = ['\\', e] → ¬e = 'u' → escDecode e = c →
            decodeStrF f (escChar c ++ (s.flatMap escChar ++ '"' :: rest)) = some (c :: s, rest) := by
          intro e hesc hne hdec
          rw [hesc] at hf ⊢
          simp only [List.length_cons, List.length_nil] at hf
          obtain ⟨f1, rfl⟩ : ∃ g, f = g + 1 := ⟨f - 1, by omega⟩
          simp only [List.cons_append, List.nil_append]
          rw [decodeStrF, if_neg (by decide : ¬('\\' : Char) = '"'), if_pos rfl]
          obtain ⟨f2, rfl⟩ : ∃ g, f1 = g + 1 := ⟨f1 - 1, by omega⟩
          rw [decodeEscF, if_neg hne]
          rw [ih f2 rest (by omega), hdec]
          rfl
        by_cases h3 : c = '\x08'
        · subst h3
          exact hgen 'b' rfl (by decide) rfl
        · by_cases h4 : c = '\x09'
          · subst h4
            exact hgen 't' rfl (by decide) rfl
          · by_cases h5 : c = '\x0a'
            · subst h5
              exact hgen 'n' rfl (by decide) rfl
            · by_cases h6 : c = '\x0c'
              · subst h6
                exact hgen 'f' rfl (by decide) rfl
              · by_cases h7 : c = '\x0d'
                · subst h7
                  exact hgen 'r' rfl (by decide) rfl
                · by_cases h8 : c.toNat < 32
                  · have hesc : escChar c = ['\\', 'u', '0', '0', hexDigitChar (c.toNat / 16), hexDigitChar (c.toNat % 16)] := by
                      unfold escChar
                      rw [if_neg h1, if_neg h2, if_neg h3, if_neg h4, if_neg h5, if_neg h6, if_neg h7, if_pos h8]
                    rw [hesc] at hf ⊢
                    simp only [List.length_cons, List.length_nil] at hf
                    obtain ⟨f1, rfl⟩ : ∃ g, f = g + 1 := ⟨f - 1, by omega⟩
                    simp only [List.cons_append, List.nil_append]
                    rw [decodeStrF, if_neg (by decide : ¬('\\' : Char) = '"'), if_pos rfl]
                    obtain ⟨f2, rfl⟩ : ∃ g, f1 = g + 1 := ⟨f1 - 1, by omega⟩
                    rw [decodeEscF, if_pos rfl]
                    obtain ⟨f3, rfl⟩ : ∃ g, f2 = g + 1 := ⟨f2 - 1, by omega⟩
                    rw [decodeEscUF]
                    rw [ih f3 rest (by omega)]
                    simp only [Option.map_some']
                    have hv0 : hexVal '0' = 0 := by decide
                    rw [hv0, hexVal_hexDigitChar (c.toNat / 16) (by omega),
                      hexVal_hexDigitChar (c.toNat % 16) (by omega)]
                    have harith : 4096 * 0 + 256 * 0 + 16 * (c.toNat / 16) + c.toNat % 16 = c.toNat := by
                      omega
                    rw [harith, Char.ofNat_toNat]
                  · have hesc : escChar c = [c] := by
                      unfold escChar
                      rw [if_neg h1, if_neg h2, if_neg h3, if_neg h4, if_neg h5, if_neg h6, if_neg h7, if_neg h8]
                    rw [hesc] at hf ⊢
                    simp only [List.length_cons, List.length_nil] at hf
                    obtain ⟨f1, rfl⟩ : ∃ g, f = g + 1 := ⟨f - 1, by omega⟩
                    simp only [List.cons_append, List.nil_append]
                    rw [decodeStrF, if_neg h1, if_neg h2]
                    rw [ih f1 rest (by omega)]
                    rfl

theorem isDigitChar_iff (c : Char) : isDigitChar c = true ↔ 48 ≤ c.toNat ∧ c.toNat ≤ 57 := by
  simp [isDigitChar]

theorem encInt_head (n : Int) :
    ∃ c cs, encInt n = c :: cs ∧ (48 ≤ c.toNat ∧ c.toNat ≤ 57 ∨ c.toNat = 45) := by
  match n with
  | Int.ofNat m =>
    obtain ⟨d, ds, hnd⟩ := List.exists_cons_of_ne_nil (natDigits_ne_nil m)
    refine ⟨d, ds, by simpa [encInt] using hnd, Or.inl ?_⟩
    have hmem := natDigits_all_digits m d (by rw [hnd]; exact List.mem_cons_self d ds)
    exact (isDigitChar_iff d).mp hmem
  | Int.negSucc m => exact ⟨'-', natDigits (m + 1), rfl, Or.inr (by decide)⟩

theorem encJson_head_ne_rbrack (j : Json) : ∃ c cs, encJson j = c :: cs ∧ ¬c = ']' := by
  cases j with
  | null => exact ⟨'n', _, rfl, by decide⟩
  | bool b =>
    cases b
    · exact ⟨'f', _, rfl, by decide⟩
    · exact ⟨'t', _, rfl, by decide⟩
  | num n =>
    obtain ⟨c, cs, henc, hc⟩ := encInt_head n
    refine ⟨c, cs, by simpa [encJson] using henc, ?_⟩
    rintro rfl
    revert hc
    decide
  | str s => exact ⟨'"', _, rfl, by decide⟩
  | arr es => exact ⟨'[', _, rfl, by decide⟩
  | obj fs => exact ⟨lbrace, _, rfl, by decide⟩

theorem noDigit_encArrTail (es : List Json) (rest : List Char) :
    noDigitHead (encArrTail es ++ rest) = true := by
  cases es <;> rfl

theorem noDigit_encObjTail (fs : List (String × Json)) (rest : List Char) :
    noDigitHead (encObjTail fs ++ rest) = true := by
  cases fs <;> rfl

theorem stringMk_data (s : String) : String.mk s.data = s := rfl

theorem decodeEnc (f : Nat) :
    (∀ j rest, jfuel j ≤ f → noDigitHead rest = true →
      decodeJson f (encJson j ++ rest) = some (j, rest)) ∧
    (∀ es rest, atfuel es ≤ f →
      decodeArrTail f (encArrTail es ++ rest) = some (es, rest)) ∧
    (∀ fs rest, otfuel fs ≤ f →
      decodeObjTail f (encObjTail fs ++ rest) = some (fs, rest)) ∧
    (∀ kv rest, ffuel kv ≤ f → noDigitHead rest = true →
      decodeField f (encField kv ++ rest) = some (kv, rest)) := by
  induction f using Nat.strong_induction_on with
  | _ f ih =>
    refine ⟨?_, ?_, ?_, ?_⟩
    · intro j rest hj hrest
      cases j with
      | null =>
        simp only [jfuel] at hj
        obtain ⟨f1, rfl⟩ : ∃ g, f = g + 1 := ⟨f - 1, by omega⟩
        simp [encJson, decodeJson, expectNull]
      | bool b =>
        simp only [jfuel] at hj
        obtain ⟨f1, rfl⟩ : ∃ g, f = g + 1 := ⟨f - 1, by omega⟩
        cases b <;> simp [encJson, decodeJson, expectTrue, expectFalse]
      | num n =>
        simp only [jfuel] at hj
        obtain ⟨f1, rfl⟩ : ∃ g, f = g + 1 := ⟨f - 1, by omega⟩
        obtain ⟨c, cs, henc, hc⟩ := encInt_head n
        rw [show encJson (.num n) = encInt n from rfl, henc, List.cons_append]
        rw [decodeJson]
        have hne : ¬c = 'n' ∧ ¬c = 't' ∧ ¬c = 'f' ∧ ¬c = '"' ∧ ¬c = '[' ∧ ¬c = lbrace := by
          refine ⟨?_, ?_, ?_, ?_, ?_, ?_⟩ <;> rintro rfl <;> revert hc <;> decide
        rw [if_neg hne.1, if_neg hne.2.1, if_neg hne.2.2.1, if_neg hne.2.2.2.1,
          if_neg hne.2.2.2.2.1, if_neg hne.2.2.2.2.2]
        rw [← List.cons_append, ← henc]
        exact decodeNum_encInt n rest hrest
      | str s =>
        simp only [jfuel] at hj
        obtain ⟨f1, rfl⟩ : ∃ g, f = g + 1 := ⟨f - 1, by omega⟩
        rw [show encJson (.str s) = '"' :: (escString s ++ ['"']) from rfl]
        rw [List.cons_append, List.append_assoc, List.singleton_append]
        rw [decodeJson]
        rw [if_neg (by decide : ¬('"' : Char) = 'n'), if_neg (by decide : ¬('"' : Char) = 't'),
          if_neg (by decide : ¬('"' : Char) = 'f'), if_pos rfl]
        rw [show escString s = s.data.flatMap escChar from rfl]
        rw [decodeStrF_esc s.data f1 rest (by omega)]
        simp [stringMk_data]
      | arr es =>
        cases es with
        | nil =>
          simp only [jfuel] at hj
          obtain ⟨f1, rfl⟩ : ∃ g, f = g + 1 := ⟨f - 1, by omega⟩
          rw [show encJson (.arr []) = ['[', ']'] from rfl]
          rw [show (['[', ']'] : List Char) ++ rest = '[' :: (']' :: rest) from rfl]
          rw [decodeJson]
          rw [if_neg (by decide : ¬('[' : Char) = 'n'), if_neg (by decide : ¬('[' : Char) = 't'),
            if_neg (by decide : ¬('[' : Char) = 'f'), if_neg (by decide : ¬('[' : Char) = '"'),
            if_pos rfl]
          obtain ⟨f2, rfl⟩ : ∃ g, f1 = g + 1 := ⟨f1 - 1, by omega⟩
          rw [decodeArrStart, if_pos rfl]
        | cons e es2 =>
          simp only [jfuel] at hj
          obtain ⟨f1, rfl⟩ : ∃ g, f = g + 1 := ⟨f - 1, by omega⟩
          rw [show encJson (.arr (e :: es2)) = '[' :: (encJson e ++ encArrTail es2) from rfl]
          rw [List.cons_append, List.append_assoc]
          rw [decodeJson]
          rw [if_neg (by decide : ¬('[' : Char) = 'n'), if_neg (by decide : ¬('[' : Char) = 't'),
            if_neg (by decide : ¬('[' : Char) = 'f'), if_neg (by decide : ¬('[' : Char) = '"'),
            if_pos rfl]
          obtain ⟨f2, rfl⟩ : ∃ g, f1 = g + 1 := ⟨f1 - 1, by omega⟩
          obtain ⟨c, cs, henc, hcne⟩ := encJson_head_ne_rbrack e
          rw [henc, List.cons_append]
          rw [decodeArrStart, if_neg hcne]
          rw [← List.cons_append, ← henc]
          rw [(ih f2 (by omega)).1 e (encArrTail es2 ++ rest) (by omega)
            (noDigit_encArrTail es2 rest)]
          rw [Option.some_bind]
          rw [(ih f2 (by omega)).2.1 es2 rest (by omega)]
          rw [Option.map_some']
      | obj fs =>
        cases fs with
        | nil =>
          simp only [jfuel] at hj
          obtain ⟨f1, rfl⟩ : ∃ g, f = g + 1 := ⟨f - 1, by omega⟩
          rw [show encJson (.obj []) = [lbrace, rbrace] from rfl]
          rw [show ([lbrace, rbrace] : List Char) ++ rest = lbrace :: (rbrace :: rest) from rfl]
          rw [decodeJson]
          rw [if_neg (by decide : ¬lbrace = 'n'), if_neg (by decide : ¬lbrace = 't'),
            if_neg (by decide : ¬lbrace = 'f'), if_neg (by decide : ¬lbrace = '"'),
            if_neg (by decide : ¬lbrace = '['), if_pos rfl]
          obtain ⟨f2, rfl⟩ : ∃ g, f1 = g + 1 := ⟨f1 - 1, by omega⟩
          rw [decodeObjStart, if_pos rfl]
        | cons kv fs2 =>
          simp only [jfuel] at hj
          obtain ⟨f1, rfl⟩ : ∃ g, f = g + 1 := ⟨f - 1, by omega⟩
          rw [show encJson (.obj (kv :: fs2)) = lbrace :: (encField kv ++ encObjTail fs2) from rfl]
          rw [List.cons_append, List.append_assoc]
          rw [decodeJson]
          rw [if_neg (by decide : ¬lbrace = 'n'), if_neg (by decide : ¬lbrace = 't'),
            if_neg (by decide : ¬lbrace = 'f'), if_neg (by decide : ¬lbrace = '"'),
            if_neg (by decide : ¬lbrace = '['), if_pos rfl]
          obtain ⟨f2, rfl⟩ : ∃ g, f1 = g + 1 := ⟨f1 - 1, by omega⟩
          obtain ⟨k, v⟩ := kv
          rw [show encField (k, v) = '"' :: (escString k ++ ('"' :: ':' :: encJson v)) from rfl]
          rw [List.cons_append]
          rw [decodeObjStart, if_neg (by decide : ¬('"' : Char) = rbrace)]
          rw [← List.cons_append,
            ← show encField (k, v) = '"' :: (escString k ++ ('"' :: ':' :: encJson v)) from rfl]
          rw [(ih f2 (by omega)).2.2.2 (k, v) (encObjTail fs2 ++ rest)
            (by omega) (noDigit_encObjTail fs2 rest)]
          rw [Option.some_bind]
          rw [(ih f2 (by omega)).2.2.1 fs2 rest (by omega)]
          rw [Option.map_some']
    · intro es rest he
      cases es with
      | nil =>
        simp only [atfuel] at he
        obtain ⟨f1, rfl⟩ : ∃ g, f = g + 1 := ⟨f - 1, by omega⟩
        rw [show (encArrTail [] : List Char) = [']'] from rfl, List.singleton_append]
        rw [decodeArrTail, if_pos rfl]
      | cons e es2 =>
        simp only [atfuel] at he
        obtain ⟨f1, rfl⟩ : ∃ g, f = g + 1 := ⟨f - 1, by omega⟩
        rw [show encArrTail (e :: es2) = ',' :: (encJson e ++ encArrTail es2) from rfl]
        rw [List.cons_append, List.append_assoc]
        rw [decodeArrTail]
        rw [if_neg (by decide : ¬(',' : Char) = ']'), if_pos rfl]
        rw [(ih f1 (by omega)).1 e (encArrTail es2 ++ rest) (by omega)
          (noDigit_encArrTail es2 rest)]
        rw [Option.some_bind]
        rw [(ih f1 (by omega)).2.1 es2 rest (by omega)]
        rw [Option.map_some']
    · intro fs rest ho
      cases fs with
      | nil =>
        simp only [otfuel] at ho
        obtain ⟨f1, rfl⟩ : ∃ g, f = g + 1 := ⟨f - 1, by omega⟩
        rw [show (encObjTail [] : List Char) = [rbrace] from rfl, List.singleton_append]
        rw [decodeObjTail, if_pos rfl]
      | cons kv fs2 =>
        simp only [otfuel] at ho
        obtain ⟨f1, rfl⟩ : ∃ g, f = g + 1 := ⟨f - 1, by omega⟩
        rw [show encObjTail (kv :: fs2) = ',' :: (encField kv ++ encObjTail fs2) from rfl]
        rw [List.cons_append, List.append_assoc]
        rw [decodeObjTail]
        rw [if_neg (by decide : ¬(',' : Char) = rbrace), if_pos rfl]
        rw [(ih f1 (by omega)).2.2.2 kv (encObjTail fs2 ++ rest) (by omega)
          (noDigit_encObjTail fs2 rest)]
        rw [Option.some_bind]
        rw [(ih f1 (by omega)).2.2.1 fs2 rest (by omega)]
        rw [Option.map_some']
    · intro kv rest hkv hrest
      obtain ⟨k, v⟩ := kv
      simp only [ffuel] at hkv
      obtain ⟨f1, rfl⟩ : ∃ g, f = g + 1 := ⟨f - 1, by omega⟩
      rw [show encField (k, v) = '"' :: (escString k ++ ('"' :: ':' :: encJson v)) from rfl]
      rw [List.cons_append, List.append_assoc]
      rw [decodeField, if_pos rfl]
      rw [show ('"' :: ':' :: encJson v) ++ rest = '"' :: (':' :: (encJson v ++ rest)) from by
        simp]
      rw [show escString k = k.data.flatMap escChar from rfl]
      rw [decodeStrF_esc k.data f1 (':' :: (encJson v ++ rest)) (by omega)]
      rw [Option.some_bind]
      rw [show expectColon (':' :: (encJson v ++ rest)) = some (encJson v ++ rest) from by
        rw [expectColon, if_pos rfl]]
      rw [Option.some_bind]
      rw [(ih f1 (by omega)).1 v rest (by omega) hrest]
      rw [Option.map_some']

theorem scost_eq (cs : List Char) : scost cs = (cs.flatMap escChar).length + 1 := by
  induction cs with
  | nil => rfl
  | cons c cs ih => simp [scost, ih]; omega

theorem jfuel_le_aux : ∀ n : Nat,
    (∀ j : Json, sizeOf j ≤ n → jfuel j ≤ 2 * (encJson j).length) ∧
    (∀ es : List Json, sizeOf es ≤ n → atfuel es ≤ 2 * (encArrTail es).length) ∧
    (∀ fs : List (String × Json), sizeOf fs ≤ n → otfuel fs ≤ 2 * (encObjTail fs).length) ∧
    (∀ kv : String × Json, sizeOf kv ≤ n → ffuel kv ≤ 2 * (encField kv).length) := by
  intro n
  induction n using Nat.strong_induction_on with
  | _ n ih =>
    refine ⟨?_, ?_, ?_, ?_⟩
    · intro j hs
      cases j with
      | null => decide
      | bool b => cases b <;> decide
      | num m =>
        have h1 : encInt m ≠ [] := by
          cases m with
          | ofNat k => simpa [encInt] using natDigits_ne_nil k
          | negSucc k => simp [encInt]
        have h2 : 1 ≤ (encInt m).length := by
          cases hc : encInt m with
          | nil => exact absurd hc h1
          | cons a l => simp
        simp only [jfuel, show encJson (.num m) = encInt m from rfl]
        omega
      | str s =>
        simp only [jfuel, show encJson (.str s) = '"' :: (escString s ++ ['"']) from rfl]
        rw [scost_eq]
        simp only [List.length_cons, List.length_append, List.length_singleton, escString]
        omega
      | arr es =>
        cases es with
        | nil => decide
        | cons e es2 =>
          simp only [Json.arr.sizeOf_spec, List.cons.sizeOf_spec] at hs
          have hsz : 1 ≤ n := by omega
          have hj := (ih (n - 1) (by omega)).1 e (by omega)
          have ha := (ih (n - 1) (by omega)).2.1 es2 (by omega)
          simp only [jfuel, show encJson (.arr (e :: es2)) = '[' :: (encJson e ++ encArrTail es2) from rfl]
          simp only [List.length_cons, List.length_append]
          omega
      | obj fs =>
        cases fs with
        | nil => decide
        | cons kv fs2 =>
          simp only [Json.obj.sizeOf_spec, List.cons.sizeOf_spec] at hs
          have hf := (ih (n - 1) (by omega)).2.2.2 kv (by omega)
          have ho := (ih (n - 1) (by omega)).2.2.1 fs2 (by omega)
          simp only [jfuel, show encJson (.obj (kv :: fs2)) = lbrace :: (encField kv ++ encObjTail fs2) from rfl]
          simp only [List.length_cons, List.length_append]
          omega
    · intro es hs
      cases es with
      | nil => decide
      | cons e es2 =>
        simp only [List.cons.sizeOf_spec] at hs
        have hj := (ih (n - 1) (by omega)).1 e (by omega)
        have ha := (ih (n - 1) (by omega)).2.1 es2 (by omega)
        simp only [atfuel, show encArrTail (e :: es2) = ',' :: (encJson e ++ encArrTail es2) from rfl]
        simp only [List.length_cons, List.length_append]
        omega
    · intro fs hs
      cases fs with
      | nil => decide
      | cons kv fs2 =>
        simp only [List.cons.sizeOf_spec] at hs
        have hf := (ih (n - 1) (by omega)).2.2.2 kv (by omega)
        have ho := (ih (n - 1) (by omega)).2.2.1 fs2 (by omega)
        simp only [otfuel, show encObjTail (kv :: fs2) = ',' :: (encField kv ++ encObjTail fs2) from rfl]
        simp only [List.length_cons, List.length_append]
        omega
    · intro kv hs
      obtain ⟨k, v⟩ := kv
      simp only [Prod.mk.sizeOf_spec] at hs
      have hj := (ih (n - 1) (by omega)).1 v (by omega)
      simp only [ffuel, show encField (k, v) = '"' :: (escString k ++ ('"' :: ':' :: encJson v)) from rfl]
      rw [scost_eq]
      simp only [List.length_cons, List.length_append, escString]
      omega

theorem jfuel_le (j : Json) : jfuel j ≤ 2 * (encJson j).length :=
  (jfuel_le_aux (sizeOf j)).1 j le_rfl

theorem jsonParse_stringify (j : Json) : jsonParse (jsonStringify j) = some j := by
  unfold jsonParse jsonStringify
  rw [show (String.mk (encJson j)).data = encJson j from rfl]
  have hmain := (decodeEnc (2 * (encJson j).length + 1)).1 j []
    (by have := jfuel_le j; omega) rfl
  rw [List.append_nil] at hmain
  rw [hmain]
/-! ## Helper lemmas about the response loops -/

theorem stringJoin_cons (s : String) (l : List String) :
    String.join (s :: l) = s ++ String.join l := by
  apply String.ext
  simp [String.data_join]

theorem stringJoin_nil : String.join ([] : List String) = "" := by
  apply String.ext
  simp [String.data_join]

theorem fragmentTexts_nil : fragmentTexts [] = [] := rfl

theorem fragmentTexts_cons_text (s : String) (rest : List ResponseFragment) :
    fragmentTexts (.text s :: rest) = s :: fragmentTexts rest := rfl

theorem fragmentTexts_cons_tool (c : LanguageModelToolCallPart) (rest : List ResponseFragment) :
    fragmentTexts (.toolCall c :: rest) = fragmentTexts rest := rfl

theorem fragmentToolCalls_nil : fragmentToolCalls [] = [] := rfl

theorem fragmentToolCalls_cons_text (s : String) (rest : List ResponseFragment) :
    fragmentToolCalls (.text s :: rest) = fragmentToolCalls rest := rfl

theorem fragmentToolCalls_cons_tool (c : LanguageModelToolCallPart)
    (rest : List ResponseFragment) :
    fragmentToolCalls (.toolCall c :: rest) = c :: fragmentToolCalls rest := rfl

theorem drainFragments_foldl (stream : List ResponseFragment) :
    ∀ acc : String × List LanguageModelToolCallPart,
      stream.foldl
        (fun acc part =>
          match part with
          | .text s => (acc.1 ++ s, acc.2)
          | .toolCall c => (acc.1, acc.2 ++ [c])) acc =
      (acc.1 ++ String.join (fragmentTexts stream), acc.2 ++ fragmentToolCalls stream) := by
  induction stream with
  | nil =>
    intro acc
    simp [fragmentTexts_nil, fragmentToolCalls_nil, stringJoin_nil]
  | cons fr rest ih =>
    intro acc
    cases fr with
    | text s =>
      rw [List.foldl_cons]
      rw [ih]
      rw [fragmentTexts_cons_text, fragmentToolCalls_cons_text, stringJoin_cons]
      simp [String.append_assoc]
    | toolCall c =>
      rw [List.foldl_cons]
      rw [ih]
      rw [fragmentTexts_cons_tool, fragmentToolCalls_cons_tool]
      simp

/-- The drain fold computes exactly the in-order text concatenation and the
in-order tool call list. -/
theorem drainFragments_eq (stream : List ResponseFragment) :
    drainFragments stream = (String.join (fragmentTexts stream), fragmentToolCalls stream) := by
  unfold drainFragments
  rw [drainFragments_foldl]
  simp

theorem openAIStreamLoop_spec (stream : List ResponseFragment) :
    ∀ chunkIndex,
      (openAIStreamLoop stream chunkIndex).2.1 = String.join (fragmentTexts stream) ∧
      (openAIStreamLoop stream chunkIndex).2.2 = fragmentToolCalls stream ∧
      (openAIStreamLoop stream chunkIndex).1.filterMap (fun ch =>
        match ch with
        | .delta _ s => some s
        | _ => none) = fragmentTexts stream ∧
      (openAIStreamLoop stream chunkIndex).1.filterMap (fun ch =>
        match ch with
        | OpenAIStreamChunk.finishChunk r => some r
        | _ => none) = [] := by
  induction stream with
  | nil =>
    intro chunkIndex
    refine ⟨?_, rfl, rfl, rfl⟩
    simp [openAIStreamLoop, fragmentTexts_nil, stringJoin_nil]
  | cons fr rest ih =>
    intro chunkIndex
    cases fr with
    | text s =>
      obtain ⟨h1, h2, h3, h4⟩ := ih (chunkIndex + 1)
      refine ⟨?_, ?_, ?_, ?_⟩
      · rw [show (openAIStreamLoop (.text s :: rest) chunkIndex).2.1 =
            s ++ (openAIStreamLoop rest (chunkIndex + 1)).2.1 from rfl]
        rw [h1, fragmentTexts_cons_text, stringJoin_cons]
      · rw [show (openAIStreamLoop (.text s :: rest) chunkIndex).2.2 =
            (openAIStreamLoop rest (chunkIndex + 1)).2.2 from rfl]
        rw [h2, fragmentToolCalls_cons_text]
      · rw [show (openAIStreamLoop (.text s :: rest) chunkIndex).1 =
            .delta (chunkIndex == 0) s :: (openAIStreamLoop rest (chunkIndex + 1)).1 from rfl]
        rw [List.filterMap_cons]
        simp only []
        rw [h3, fragmentTexts_cons_text]
      · rw [show (openAIStreamLoop (.text s :: rest) chunkIndex).1 =
            .delta (chunkIndex == 0) s :: (openAIStreamLoop rest (chunkIndex + 1)).1 from rfl]
        rw [List.filterMap_cons]
        simp only []
        rw [h4]
    | toolCall c =>
      obtain ⟨h1, h2, h3, h4⟩ := ih chunkIndex
      refine ⟨?_, ?_, ?_, ?_⟩
      · rw [show (openAIStreamLoop (.toolCall c :: rest) chunkIndex).2.1 =
            (openAIStreamLoop rest chunkIndex).2.1 from rfl]
        rw [h1, fragmentTexts_cons_tool]
      · rw [show (openAIStreamLoop (.toolCall c :: rest) chunkIndex).2.2 =
            c :: (openAIStreamLoop rest chunkIndex).2.2 from rfl]
        rw [h2, fragmentToolCalls_cons_tool]
      · rw [show (openAIStreamLoop (.toolCall c :: rest) chunkIndex).1 =
            (openAIStreamLoop rest chunkIndex).1 from rfl]
        rw [h3, fragmentTexts_cons_tool]
      · rw [show (openAIStreamLoop (.toolCall c :: rest) chunkIndex).1 =
            (openAIStreamLoop rest chunkIndex).1 from rfl]
        rw [h4]

theorem anthStreamLoop_spec (stream : List ResponseFragment) :
    ∀ blockIndex,
      (anthStreamLoop stream blockIndex).1 =
        (fragmentTexts stream).map (fun s =>
          SSEFrame.mk "content_block_delta" (.contentBlockDeltaText blockIndex s)) ∧
      (anthStreamLoop stream blockIndex).2.1 = String.join (fragmentTexts stream) ∧
      (anthStreamLoop stream blockIndex).2.2 = fragmentToolCalls stream := by
  induction stream with
  | nil =>
    intro blockIndex
    refine ⟨rfl, ?_, rfl⟩
    simp [anthStreamLoop, fragmentTexts_nil, stringJoin_nil]
  | cons fr rest ih =>
    intro blockIndex
    cases fr with
    | text s =>
      obtain ⟨h1, h2, h3⟩ := ih blockIndex
      refine ⟨?_, ?_, ?_⟩
      · rw [show (anthStreamLoop (.text s :: rest) blockIndex).1 =
            ⟨"content_block_delta", .contentBlockDeltaText blockIndex s⟩ ::
              (anthStreamLoop rest blockIndex).1 from rfl]
        rw [h1, fragmentTexts_cons_text, List.map_cons]
      · rw [show (anthStreamLoop (.text s :: rest) blockIndex).2.1 =
            s ++ (anthStreamLoop rest blockIndex).2.1 from rfl]
        rw [h2, fragmentTexts_cons_text, stringJoin_cons]
      · rw [show (anthStreamLoop (.text s :: rest) blockIndex).2.2 =
            (anthStreamLoop rest blockIndex).2.2 from rfl]
        rw [h3, fragmentToolCalls_cons_text]
    | toolCall c =>
      obtain ⟨h1, h2, h3⟩ := ih blockIndex
      refine ⟨?_, ?_, ?_⟩
      · rw [show (anthStreamLoop (.toolCall c :: rest) blockIndex).1 =
            (anthStreamLoop rest blockIndex).1 from rfl]
        rw [h1, fragmentTexts_cons_tool]
      · rw [show (anthStreamLoop (.toolCall c :: rest) blockIndex).2.1 =
            (anthStreamLoop rest blockIndex).2.1 from rfl]
        rw [h2, fragmentTexts_cons_tool]
      · rw [show (anthStreamLoop (.toolCall c :: rest) blockIndex).2.2 =
            c :: (anthStreamLoop rest blockIndex).2.2 from rfl]
        rw [h3, fragmentToolCalls_cons_tool]

theorem anthToolBlocks_eq (calls : List AnthropicToolUseBlock) :
    ∀ blockIndex,
      anthToolBlocks blockIndex calls =
        (List.enumFrom blockIndex calls).flatMap (fun p =>
          [SSEFrame.mk "content_block_start" (.contentBlockStartToolUse p.1 p.2.id p.2.name),
           SSEFrame.mk "content_block_delta"
             (.contentBlockDeltaInputJson p.1 (jsonStringify p.2.input)),
           SSEFrame.mk "content_block_stop" (.contentBlockStop p.1)]) := by
  induction calls with
  | nil => intro blockIndex; rfl
  | cons c rest ih =>
    intro blockIndex
    rw [List.enumFrom_cons, List.flatMap_cons]
    rw [show anthToolBlocks blockIndex (c :: rest) =
      ⟨"content_block_start", .contentBlockStartToolUse blockIndex c.id c.name⟩ ::
      ⟨"content_block_delta", .contentBlockDeltaInputJson blockIndex (jsonStringify c.input)⟩ ::
      ⟨"content_block_stop", .contentBlockStop blockIndex⟩ ::
      anthToolBlocks (blockIndex + 1) rest from rfl]
    rw [ih (blockIndex + 1)]
    rfl

theorem anthToolBlocks_startIndices (calls : List AnthropicToolUseBlock) :
    ∀ blockIndex,
      streamedStartIndices (anthToolBlocks blockIndex calls) =
        List.range' blockIndex calls.length := by
  induction calls with
  | nil => intro blockIndex; rfl
  | cons c rest ih =>
    intro blockIndex
    rw [show anthToolBlocks blockIndex (c :: rest) =
      ⟨"content_block_start", .contentBlockStartToolUse blockIndex c.id c.name⟩ ::
      ⟨"content_block_delta", .contentBlockDeltaInputJson blockIndex (jsonStringify c.input)⟩ ::
      ⟨"content_block_stop", .contentBlockStop blockIndex⟩ ::
      anthToolBlocks (blockIndex + 1) rest from rfl]
    unfold streamedStartIndices
    rw [List.filterMap_cons, List.filterMap_cons, List.filterMap_cons]
    simp only []
    have htail := ih (blockIndex + 1)
    unfold streamedStartIndices at htail
    rw [htail]
    rw [List.length_cons, List.range'_succ]

theorem streamedStartIndices_append (a b : List SSEFrame) :
    streamedStartIndices (a ++ b) = streamedStartIndices a ++ streamedStartIndices b := by
  unfold streamedStartIndices
  rw [List.filterMap_append]

theorem convert_length_pos (calls : List LanguageModelToolCallPart) :
    ((convertVSCodeToolCallsToOpenAI (some calls)).length > 0) = (calls.length > 0) := by
  simp [convertVSCodeToolCallsToOpenAI]

theorem convertAnth_length_pos (calls : List LanguageModelToolCallPart) :
    ((convertVSCodeToolCallsToAnthropic (some calls)).length > 0) = (calls.length > 0) := by
  simp [convertVSCodeToolCallsToAnthropic]

theorem jsOrString_default_ne (d : Option String) (name : String) :
    jsOrString d (if name = "" then "no description available" else name) ≠ "" := by
  unfold jsOrString
  match d with
  | none =>
    by_cases hn : name = "" <;> simp [hn]
  | some s =>
    by_cases hs : s = ""
    · by_cases hn : name = "" <;> simp [hs, hn]
    · simp [hs]

theorem flattenTextParts_filterMap (ps : List WirePart) :
    flattenTextParts ps =
      String.intercalate "\n" (ps.filterMap (fun p =>
        if p.type == "text" then some p.text else none)) := by
  unfold flattenTextParts
  congr 1
  induction ps with
  | nil => rfl
  | cons p rest ih =>
    by_cases hp : (p.type == "text") = true
    · have hp2 : p.type = "text" := by simpa using hp
      simp [List.filter_cons, List.filterMap_cons, hp, hp2, ih]
    · have hp2 : ¬ p.type = "text" := by simpa using hp
      simp [List.filter_cons, List.filterMap_cons, hp, hp2, ih]

theorem flattenTextParts_filter (ps : List WirePart) :
    flattenTextParts (ps.filter (fun p => p.type == "text")) = flattenTextParts ps := by
  rw [flattenTextParts_filterMap, flattenTextParts_filterMap]
  congr 1
  induction ps with
  | nil => rfl
  | cons p rest ih =>
    simp only [beq_iff_eq] at ih
    by_cases hp : (p.type == "text") = true
    · have hp2 : p.type = "text" := by simpa using hp
      simp [List.filter_cons, List.filterMap_cons, hp, hp2, ih]
    · have hp2 : ¬ p.type = "text" := by simpa using hp
      simp [List.filter_cons, List.filterMap_cons, hp, hp2, ih]

theorem stringJoin_append (a b : List String) :
    String.join (a ++ b) = String.join a ++ String.join b := by
  induction a with
  | nil => rw [List.nil_append, stringJoin_nil, String.ext_iff]; simp
  | cons s rest ih =>
    rw [List.cons_append, stringJoin_cons, stringJoin_cons, ih, String.append_assoc]

theorem textOfBlocks_toolUses (l : List AnthropicToolUseBlock) :
    textOfBlocks (l.map AnthropicContentBlock.toolUse) = "" := by
  induction l with
  | nil => rfl
  | cons c rest ih =>
    unfold textOfBlocks at ih ⊢
    rw [List.map_cons, List.filterMap_cons]
    exact ih

theorem textOfBlocks_append (a b : List AnthropicContentBlock) :
    textOfBlocks (a ++ b) = textOfBlocks a ++ textOfBlocks b := by
  unfold textOfBlocks
  rw [List.filterMap_append, stringJoin_append]

theorem streamedTextOpenAI_append (a b : List OpenAIStreamChunk) :
    streamedTextOpenAI (a ++ b) = streamedTextOpenAI a ++ streamedTextOpenAI b := by
  unfold streamedTextOpenAI
  rw [List.filterMap_append, stringJoin_append]

theorem streamedFinishOpenAI_append (a b : List OpenAIStreamChunk) :
    streamedFinishOpenAI (a ++ b) = streamedFinishOpenAI a ++ streamedFinishOpenAI b := by
  unfold streamedFinishOpenAI
  rw [List.filterMap_append]

theorem streamedTextAnthropic_append (a b : List SSEFrame) :
    streamedTextAnthropic (a ++ b) = streamedTextAnthropic a ++ streamedTextAnthropic b := by
  unfold streamedTextAnthropic
  rw [List.filterMap_append, stringJoin_append]

theorem streamedStopAnthropic_append (a b : List SSEFrame) :
    streamedStopAnthropic (a ++ b) = streamedStopAnthropic a ++ streamedStopAnthropic b := by
  unfold streamedStopAnthropic
  rw [List.filterMap_append]

theorem anthToolBlocks_no_text (calls : List AnthropicToolUseBlock) :
    ∀ k, streamedTextAnthropic (anthToolBlocks k calls) = "" := by
  induction calls with
  | nil => intro k; rfl
  | cons c rest ih =>
    intro k
    rw [show anthToolBlocks k (c :: rest) =
      ⟨"content_block_start", .contentBlockStartToolUse k c.id c.name⟩ ::
      ⟨"content_block_delta", .contentBlockDeltaInputJson k (jsonStringify c.input)⟩ ::
      ⟨"content_block_stop", .contentBlockStop k⟩ ::
      anthToolBlocks (k + 1) rest from rfl]
    unfold streamedTextAnthropic at ih ⊢
    rw [List.filterMap_cons, List.filterMap_cons, List.filterMap_cons]
    exact ih (k + 1)

theorem anthToolBlocks_no_stop (calls : List AnthropicToolUseBlock) :
    ∀ k, streamedStopAnthropic (anthToolBlocks k calls) = [] := by
  induction calls with
  | nil => intro k; rfl
  | cons c rest ih =>
    intro k
    rw [show anthToolBlocks k (c :: rest) =
      ⟨"content_block_start", .contentBlockStartToolUse k c.id c.name⟩ ::
      ⟨"content_block_delta", .contentBlockDeltaInputJson k (jsonStringify c.input)⟩ ::
      ⟨"content_block_stop", .contentBlockStop k⟩ ::
      anthToolBlocks (k + 1) rest from rfl]
    unfold streamedStopAnthropic at ih ⊢
    rw [List.filterMap_cons, List.filterMap_cons, List.filterMap_cons]
    exact ih (k + 1)

theorem streamedTextAnthropic_deltas (l : List String) (k : Nat) :
    streamedTextAnthropic (l.map (fun s =>
      SSEFrame.mk "content_block_delta" (.contentBlockDeltaText k s))) = String.join l := by
  unfold streamedTextAnthropic
  rw [List.filterMap_map]
  congr 1
  induction l with
  | nil => rfl
  | cons s rest ih => rw [List.filterMap_cons]; simp only [Function.comp]; rw [ih]

theorem streamedStopAnthropic_deltas (l : List String) (k : Nat) :
    streamedStopAnthropic (l.map (fun s =>
      SSEFrame.mk "content_block_delta" (.contentBlockDeltaText k s))) = [] := by
  unfold streamedStopAnthropic
  rw [List.filterMap_map]
  induction l with
  | nil => rfl
  | cons s rest ih => rw [List.filterMap_cons]; simp only [Function.comp]; rw [ih]

theorem streamedStartIndices_deltas (l : List String) (k : Nat) :
    streamedStartIndices (l.map (fun s =>
      SSEFrame.mk "content_block_delta" (.contentBlockDeltaText k s))) = [] := by
  unfold streamedStartIndices
  rw [List.filterMap_map]
  induction l with
  | nil => rfl
  | cons s rest ih => rw [List.filterMap_cons]; simp only [Function.comp]; rw [ih]
/-! ## The claims -/

/-- C9: converting an abstract tool call into the Protocol A wire shape (id,
function.name, JSON-serialized arguments string) or the Protocol B tool_use
block (id, name, input) and reading it back recovers the same name and the
same input JSON value, and the callId / id string is preserved byte for byte:
the OpenAI wire shape carries callId as id, the name, and JSON.stringify of
the input, which JSON.parse maps back to exactly the original input value; the
Anthropic tool_use block carries id, name and input unchanged, and the revised
handler's tool_use part handler reads it back into the original tool call
part. -/
theorem spec_c9_tool_call_roundtrip (call : LanguageModelToolCallPart) :
    (convertVSCodeToolCallsToOpenAI (some [call]) =
      [{ id := call.callId, type := "function",
         function := { name := call.name, arguments := jsonStringify call.input } }]) ∧
    (jsonParse (jsonStringify call.input) = some call.input) ∧
    (convertVSCodeToolCallsToAnthropic (some [call]) =
      [{ id := call.callId, name := call.name, input := call.input }]) ∧
    (RequestHandlerV2.toolUsePartHandler
      { id := call.callId, name := call.name, input := call.input } = call) :=
  ⟨rfl, jsonParse_stringify call.input, rfl, rfl⟩

/-- C1 (divergence witness): the error bodies the source actually renders
violate the per-protocol shapes the specification and the repository's own
format tests require. For the unknown route "/v1/messages/extra" (whose path
contains "messages"), LMAPIServer.routeRequest renders a body with no
top-level type "error" marker and with a numeric code field inside the error
object; UnifiedErrorResponse.sendError, used by the request handler for the
/v1/messages endpoint, renders a body with no top-level marker and with a
stringified code field; even the revised handler's sendError, which does add
the marker, still emits a code field inside the error object. -/
theorem spec_c1_error_shape_divergence :
    (jsIncludes "/v1/messages/extra" "messages" = true) ∧
    (Json.getField (LMAPIServer.routeRequestUnknownBody "/v1/messages/extra" "req_1") "type"
      = none) ∧
    ((Json.getField (LMAPIServer.routeRequestUnknownBody "/v1/messages/extra" "req_1") "error").bind
      (fun e => Json.getField e "code") = some (Json.num 404)) ∧
    (LMAPIServer.routeRequestUnknownBody "/v1/messages/extra" "req_1" =
      LMAPIServer.routeRequestUnknownBody "/v1/other" "req_1") ∧
    (Json.getField
      (UnifiedErrorResponse.sendErrorBody 400
        "invalid request: model, messages, and max_tokens are required"
        "invalid_request_error" (some "req_1") none) "type" = none) ∧
    ((Json.getField
      (UnifiedErrorResponse.sendErrorBody 400
        "invalid request: model, messages, and max_tokens are required"
        "invalid_request_error" (some "req_1") none) "error").bind
      (fun e => Json.getField e "code") = some (Json.str "400")) ∧
    ((Json.getField
      (RequestHandlerV2.sendErrorBody 404 "model \"x\" not found" "not_found_error" "req_1")
      "error").bind (fun e => Json.getField e "code") = some (Json.str "404")) :=
  ⟨rfl, rfl, rfl, rfl, rfl, rfl, rfl⟩

/-- C8 (counterexample): an OpenAI tool definition supplied without a
description is converted with an absent description, not with the tool's own
name: the converter copies function.description through unchanged. -/
theorem spec_c8_counterexample :
    (RequestHandler.convertOpenAIToolsToVSCode
        (some [{ function := { name := "get_weather", description := none,
                               parameters := Json.null } }])).map
      (fun t => t.description) = [none] ∧
    (none : Option String) ≠ some "get_weather" :=
  ⟨rfl, by decide⟩

/-- C8 (amended): the revised handler's Anthropic tool converter defaults a
missing or empty description to the tool's own name, or to the literal
"no description available" when the name is also empty, and the converted
description is never the empty string; the OpenAI tool converter copies the
description through unchanged, so an unsupplied OpenAI description stays
absent. -/
theorem spec_c8_tool_description_default (tools : List AnthropicTool)
    (otools : List OpenAITool) (i : Nat) :
    (∀ tool, tools[i]? = some tool → (tool.description = none ∨ tool.description = some "") →
      ((RequestHandlerV2.convertAnthropicToolsToVSCode (some tools))[i]?).map
          (fun t => t.description) =
        some (some (if tool.name = "" then "no description available" else tool.name))) ∧
    (∀ ct, (RequestHandlerV2.convertAnthropicToolsToVSCode (some tools))[i]? = some ct →
      ct.description ≠ some "") ∧
    (∀ tool, otools[i]? = some tool →
      ((RequestHandler.convertOpenAIToolsToVSCode (some otools))[i]?).map
          (fun t => t.description) =
        some tool.function.description) := by
  refine ⟨?_, ?_, ?_⟩
  · intro tool hget hdesc
    unfold RequestHandlerV2.convertAnthropicToolsToVSCode
    rw [List.getElem?_map, hget]
    rcases hdesc with h | h <;> simp [jsOrString, h]
  · intro ct hget
    unfold RequestHandlerV2.convertAnthropicToolsToVSCode at hget
    rw [List.getElem?_map] at hget
    match htool : tools[i]? with
    | none =>
      rw [htool] at hget
      exact absurd hget (by simp)
    | some tool =>
      rw [htool] at hget
      simp only [Option.map_some', Option.some.injEq] at hget
      rw [← hget]
      intro heq
      have heq2 : jsOrString tool.description
          (if tool.name = "" then "no description available" else tool.name) = "" := by
        simpa using heq
      exact jsOrString_default_ne tool.description tool.name heq2
  · intro tool hget
    unfold RequestHandler.convertOpenAIToolsToVSCode
    rw [List.getElem?_map, hget]
    rfl

/-- C6: model selection returns a model whose identifier equals the requested
name exactly if one exists; otherwise a model whose non-empty declared family
is a case-insensitive substring of the requested name, if one exists;
otherwise no match; and the exact-identifier rule always takes precedence over
the family rule. -/
theorem spec_c6_select_model (models : List LanguageModelChat) (requested : String) :
    ((∃ m ∈ models, m.id = requested) →
      ∃ m, RequestHandler.selectModel models requested = some m ∧ m ∈ models ∧
        m.id = requested) ∧
    ((∀ m ∈ models, m.id ≠ requested) →
      ∀ m, RequestHandler.selectModel models requested = some m →
        m ∈ models ∧ m.family ≠ "" ∧
          jsIncludes (jsToLower requested) (jsToLower m.family) = true) ∧
    ((∀ m ∈ models, m.id ≠ requested) →
      (∃ m ∈ models, m.family ≠ "" ∧ jsIncludes (jsToLower requested) (jsToLower m.family) = true) →
      ∃ m, RequestHandler.selectModel models requested = some m) ∧
    ((∀ m ∈ models, m.id ≠ requested ∧
        ¬(m.family ≠ "" ∧ jsIncludes (jsToLower requested) (jsToLower m.family) = true)) →
      RequestHandler.selectModel models requested = none) ∧
    ((∃ m ∈ models, m.id = requested) →
      ∀ m, RequestHandler.selectModel models requested = some m → m.id = requested) := by
  have hfam : ∀ m : LanguageModelChat,
      ((!m.family.isEmpty && jsIncludes (jsToLower requested) (jsToLower m.family)) = true) ↔
        (m.family ≠ "" ∧ jsIncludes (jsToLower requested) (jsToLower m.family) = true) := by
    intro m
    rw [Bool.and_eq_true, Bool.not_eq_true']
    constructor
    · rintro ⟨h1, h2⟩
      refine ⟨fun hemp => ?_, h2⟩
      rw [(String.isEmpty_iff m.family).mpr hemp] at h1
      exact Bool.noConfusion h1
    · rintro ⟨h1, h2⟩
      refine ⟨?_, h2⟩
      cases hcase : m.family.isEmpty
      · rfl
      · exact absurd ((String.isEmpty_iff m.family).mp hcase) h1
  have hexact : ∀ m : LanguageModelChat, ((m.id == requested) = true) ↔ m.id = requested := by
    intro m
    exact beq_iff_eq
  refine ⟨?_, ?_, ?_, ?_, ?_⟩
  · intro h
    have hsome : (models.find? (fun m => m.id == requested)).isSome = true := by
      rw [List.find?_isSome]
      obtain ⟨m, hm, hid⟩ := h
      exact ⟨m, hm, (hexact m).mpr hid⟩
    obtain ⟨m, hm⟩ := Option.isSome_iff_exists.mp hsome
    have hpm := List.find?_some hm
    refine ⟨m, ?_, List.mem_of_find?_eq_some hm, (hexact m).mp hpm⟩
    unfold RequestHandler.selectModel
    rw [hm]
  · intro h m hsel
    have hnone : models.find? (fun m => m.id == requested) = none := by
      rw [List.find?_eq_none]
      intro x hx
      rw [hexact x]
      exact h x hx
    unfold RequestHandler.selectModel at hsel
    rw [hnone] at hsel
    have hmem := List.mem_of_find?_eq_some hsel
    have hq := List.find?_some hsel
    have hq2 := (hfam m).mp hq
    exact ⟨hmem, hq2.1, hq2.2⟩
  · intro h hex
    have hnone : models.find? (fun m => m.id == requested) = none := by
      rw [List.find?_eq_none]
      intro x hx
      rw [hexact x]
      exact h x hx
    have hsome : (models.find? (fun m =>
        !m.family.isEmpty && jsIncludes (jsToLower requested) (jsToLower m.family))).isSome = true := by
      rw [List.find?_isSome]
      obtain ⟨m, hm, hprop⟩ := hex
      exact ⟨m, hm, (hfam m).mpr hprop⟩
    obtain ⟨m, hm⟩ := Option.isSome_iff_exists.mp hsome
    refine ⟨m, ?_⟩
    unfold RequestHandler.selectModel
    rw [hnone, hm]
  · intro h
    have hnone : models.find? (fun m => m.id == requested) = none := by
      rw [List.find?_eq_none]
      intro x hx
      rw [hexact x]
      exact (h x hx).1
    have hnone2 : models.find? (fun m =>
        !m.family.isEmpty && jsIncludes (jsToLower requested) (jsToLower m.family)) = none := by
      rw [List.find?_eq_none]
      intro x hx
      rw [hfam x]
      exact (h x hx).2
    unfold RequestHandler.selectModel
    rw [hnone, hnone2]
  · intro h m hsel
    have hsome : (models.find? (fun m => m.id == requested)).isSome = true := by
      rw [List.find?_isSome]
      obtain ⟨x, hx, hid⟩ := h
      exact ⟨x, hx, (hexact x).mpr hid⟩
    obtain ⟨x, hx⟩ := Option.isSome_iff_exists.mp hsome
    unfold RequestHandler.selectModel at hsel
    rw [hx] at hsel
    have hxm : x = m := by
      simpa using hsel
    have hpx := List.find?_some hx
    rw [← hxm]
    exact (hexact x).mp hpx

/-- C7: a Protocol A system-role message is converted to a user-role message
whose text is the original content prefixed with the literal system marker; a
Protocol B top-level system field (when truthy) is prepended as a synthetic
first user message with the same marker; and multi-part content in either
protocol is flattened by keeping exactly the text-typed parts, concatenated in
order with a newline separator, with all non-text parts discarded without
error. -/
theorem spec_c7_message_conversion (messages : List OpenAIMessage)
    (amessages : List AnthropicMessage) (system : String) (i : Nat) :
    (∀ msg, messages[i]? = some msg → msg.role = "system" →
      (RequestHandler.convertOpenAIMessagesToVSCode messages)[i]? =
        some (LanguageModelChatMessage.user ("[SYSTEM] " ++ contentText msg.content))) ∧
    (system ≠ "" →
      RequestHandler.convertAnthropicMessagesToVSCode amessages system =
        LanguageModelChatMessage.user ("[SYSTEM] " ++ system) ::
          RequestHandler.convertAnthropicMessagesToVSCode amessages "") ∧
    (∀ ps : List WirePart,
      flattenTextParts ps =
        String.intercalate "\n" (ps.filterMap (fun p =>
          if p.type == "text" then some p.text else none))) ∧
    (∀ ps : List WirePart,
      flattenTextParts (ps.filter (fun p => p.type == "text")) = flattenTextParts ps) := by
  refine ⟨?_, ?_, ?_, ?_⟩
  · intro msg hget hrole
    unfold RequestHandler.convertOpenAIMessagesToVSCode
    rw [List.getElem?_map, hget]
    simp [hrole]
  · intro hsys
    unfold RequestHandler.convertAnthropicMessagesToVSCode
    rw [if_pos hsys, if_neg (by simp)]
    simp
  · intro ps
    exact flattenTextParts_filterMap ps
  · intro ps
    exact flattenTextParts_filter ps

/-- C2: when the requested model resolves to no discovered model, the revised
Anthropic messages handler answers 404 with the not_found_error type and the
"model ... not found" message, while the OpenAI chat-completions handler
answers 400 with the invalid_request_error type and the "model ... not
available" message; both outcomes are error sends, never an upstream
request. -/
theorem spec_c2_model_no_match (oreq : OpenAIChatCompletionRequest)
    (areq : AnthropicMessageRequest) (models : List LanguageModelChat) :
    (openAIRequestValid oreq = true → models.length ≠ 0 →
      RequestHandler.selectModel models oreq.model = none →
      RequestHandler.handleOpenAIChatCompletionsPre "POST" oreq models =
        .errorSent 400 ERROR_CODES.INVALID_REQUEST
          ("model \"" ++ oreq.model ++ "\" not available")) ∧
    (anthropicRequestValid areq = true → models.length ≠ 0 →
      RequestHandler.selectModel models areq.model = none →
      RequestHandlerV2.handleAnthropicMessagesPre "POST" areq models =
        .errorSent 404 ERROR_CODES.NOT_FOUND_ERROR
          ("model \"" ++ areq.model ++ "\" not found")) ∧
    (∀ code errType msg modelId st,
      HandlerOutcome.errorSent code errType msg ≠ .upstreamRequest modelId st) := by
  refine ⟨?_, ?_, ?_⟩
  · intro hvalid hlen hsel
    unfold RequestHandler.handleOpenAIChatCompletionsPre
    simp [hvalid, hlen, hsel]
  · intro hvalid hlen hsel
    unfold RequestHandlerV2.handleAnthropicMessagesPre
    simp [hvalid, hlen, hsel]
  · intro code errType msg modelId st
    simp

/-- C2 witness: at a request for the unresolvable model "claude-3" against the
single discovered model "gpt-4", the OpenAI handler answers 400
invalid_request_error "model ... not available" and the revised Anthropic
handler answers 404 not_found_error "model ... not found". -/
theorem spec_c2_model_no_match_witness :
    (RequestHandler.handleOpenAIChatCompletionsPre "POST" exOpenAIRequest exModels =
      .errorSent 400 ERROR_CODES.INVALID_REQUEST "model \"claude-3\" not available") ∧
    (RequestHandlerV2.handleAnthropicMessagesPre "POST" exAnthropicRequest exModels =
      .errorSent 404 ERROR_CODES.NOT_FOUND_ERROR "model \"claude-3\" not found") ∧
    HandlerOutcome.errorSent 404 ERROR_CODES.NOT_FOUND_ERROR "model \"claude-3\" not found" ≠
      .upstreamRequest "gpt-4" false :=
  ⟨(spec_c2_model_no_match exOpenAIRequest exAnthropicRequest exModels).1 rfl
      (by decide) (by decide),
   (spec_c2_model_no_match exOpenAIRequest exAnthropicRequest exModels).2.1 rfl
      (by decide) (by decide),
   (spec_c2_model_no_match exOpenAIRequest exAnthropicRequest exModels).2.2 404
      ERROR_CODES.NOT_FOUND_ERROR "model \"claude-3\" not found" "gpt-4" false⟩

/-- C10: a Protocol B request whose max_tokens field is present but equal to 0
is rejected by the revised messages handler with HTTP 400 and the message
"invalid request: model, messages, and max_tokens are required", whatever the
discovered model list is (so before any model discovery result is consulted
and before any upstream call), because the required-field check tests
JavaScript falsiness and 0 is falsy. -/
theorem spec_c10_max_tokens_zero (areq : AnthropicMessageRequest)
    (models : List LanguageModelChat) :
    areq.max_tokens = some 0 →
      RequestHandlerV2.handleAnthropicMessagesPre "POST" areq models =
        .errorSent 400 ERROR_CODES.INVALID_REQUEST
          "invalid request: model, messages, and max_tokens are required" := by
  intro h
  have hv : anthropicRequestValid areq = false := by
    unfold anthropicRequestValid
    rw [h]
    simp
  unfold RequestHandlerV2.handleAnthropicMessagesPre
  simp [hv]

/-- C10 witness: the concrete request with max_tokens 0 is rejected with the
400 required-fields message even though its model would resolve. -/
theorem spec_c10_max_tokens_zero_witness :
    RequestHandlerV2.handleAnthropicMessagesPre "POST" exAnthropicRequestZeroMax exModels =
      .errorSent 400 ERROR_CODES.INVALID_REQUEST
        "invalid request: model, messages, and max_tokens are required" :=
  spec_c10_max_tokens_zero exAnthropicRequestZeroMax exModels rfl

/-- C3: for every finite fragment sequence, the non-streaming assemblers of
both protocols produce the in-order concatenation of the text fragments as the
single content string (nulled out for Protocol A and dropped for Protocol B
when empty), collect the tool-call fragments in arrival order, and set the
finish/stop reason to tool_calls / tool_use exactly when at least one
tool-call fragment was produced, else stop / end_turn; in particular a
response of exactly one tool call and no text assembles, in Protocol B, to
zero text blocks and exactly one tool_use block. -/
theorem spec_c3_nonstreaming_assembly (stream : List ResponseFragment)
    (call : LanguageModelToolCallPart) :
    ((RequestHandler.handleOpenAINonStreamingResponse stream).message.content =
      if String.join (fragmentTexts stream) = "" then none
        else some (String.join (fragmentTexts stream))) ∧
    ((RequestHandler.handleOpenAINonStreamingResponse stream).message.tool_calls =
      if (fragmentToolCalls stream).length > 0
        then some (convertVSCodeToolCallsToOpenAI (some (fragmentToolCalls stream)))
        else none) ∧
    ((RequestHandler.handleOpenAINonStreamingResponse stream).finish_reason =
      if (fragmentToolCalls stream).length > 0 then "tool_calls" else "stop") ∧
    ((RequestHandler.handleAnthropicNonStreamingResponse stream).content =
      (if String.join (fragmentTexts stream) ≠ ""
        then [AnthropicContentBlock.text (String.join (fragmentTexts stream))] else []) ++
        (convertVSCodeToolCallsToAnthropic (some (fragmentToolCalls stream))).map
          AnthropicContentBlock.toolUse) ∧
    ((RequestHandler.handleAnthropicNonStreamingResponse stream).stop_reason =
      if (fragmentToolCalls stream).length > 0 then "tool_use" else "end_turn") ∧
    (RequestHandlerV2.handleAnthropicResponse stream =
      RequestHandler.handleAnthropicNonStreamingResponse stream) ∧
    ((RequestHandler.handleAnthropicNonStreamingResponse [.toolCall call]).content =
      [AnthropicContentBlock.toolUse
        { id := call.callId, name := call.name, input := call.input }]) ∧
    ((RequestHandler.handleAnthropicNonStreamingResponse [.toolCall call]).stop_reason =
      "tool_use") ∧
    ((RequestHandler.handleOpenAINonStreamingResponse [.toolCall call]).finish_reason =
      "tool_calls") := by
  refine ⟨?_, ?_, ?_, ?_, ?_, rfl, rfl, rfl, rfl⟩
  · simp only [RequestHandler.handleOpenAINonStreamingResponse, drainFragments_eq]
  · simp only [RequestHandler.handleOpenAINonStreamingResponse, drainFragments_eq,
      convert_length_pos]
  · simp only [RequestHandler.handleOpenAINonStreamingResponse, drainFragments_eq,
      convert_length_pos]
  · simp only [RequestHandler.handleAnthropicNonStreamingResponse, drainFragments_eq]
  · simp only [RequestHandler.handleAnthropicNonStreamingResponse, drainFragments_eq,
      convertAnth_length_pos]

/-- C4: for every fragment sequence, the streaming and non-streaming paths of
the same protocol agree: the concatenation of the streamed text deltas equals
the non-streaming content string (the pre-nulling content for Protocol A, the
text carried by the text blocks for Protocol B), and the streamed finish/stop
reason events carry exactly the non-streaming finish/stop reason. -/
theorem spec_c4_stream_nonstream_agree (stream : List ResponseFragment) :
    (streamedTextOpenAI (RequestHandler.handleOpenAIStreamingResponse stream) =
      Option.getD (RequestHandler.handleOpenAINonStreamingResponse stream).message.content "") ∧
    (streamedFinishOpenAI (RequestHandler.handleOpenAIStreamingResponse stream) =
      [(RequestHandler.handleOpenAINonStreamingResponse stream).finish_reason]) ∧
    (streamedTextAnthropic (RequestHandlerV2.handleAnthropicStreamingResponse stream) =
      textOfBlocks (RequestHandlerV2.handleAnthropicResponse stream).content) ∧
    (streamedStopAnthropic (RequestHandlerV2.handleAnthropicStreamingResponse stream) =
      [(RequestHandlerV2.handleAnthropicResponse stream).stop_reason]) := by
  obtain ⟨h1, h2, h3, h4⟩ := openAIStreamLoop_spec stream 0
  obtain ⟨g1, g2, g3⟩ := anthStreamLoop_spec stream 0
  refine ⟨?_, ?_, ?_, ?_⟩
  · simp only [RequestHandler.handleOpenAIStreamingResponse,
      RequestHandler.handleOpenAINonStreamingResponse, drainFragments_eq]
    rw [h2]
    rw [streamedTextOpenAI_append, streamedTextOpenAI_append]
    have hL : streamedTextOpenAI (openAIStreamLoop stream 0).1 =
        String.join (fragmentTexts stream) := by
      unfold streamedTextOpenAI
      rw [h3]
    rw [hL]
    have hmid : streamedTextOpenAI
        (if (convertVSCodeToolCallsToOpenAI (some (fragmentToolCalls stream))).length > 0
          then [OpenAIStreamChunk.toolCallsDelta
            (convertVSCodeToolCallsToOpenAI (some (fragmentToolCalls stream)))]
          else []) = "" := by
      by_cases hc :
        (convertVSCodeToolCallsToOpenAI (some (fragmentToolCalls stream))).length > 0
      · rw [if_pos hc]; rfl
      · rw [if_neg hc]; rfl
    rw [hmid]
    by_cases hJ : String.join (fragmentTexts stream) = "" <;>
      simp [hJ, streamedTextOpenAI, stringJoin_nil, stringJoin_cons]
  · simp only [RequestHandler.handleOpenAIStreamingResponse,
      RequestHandler.handleOpenAINonStreamingResponse, drainFragments_eq]
    rw [h2]
    rw [streamedFinishOpenAI_append, streamedFinishOpenAI_append]
    have hL : streamedFinishOpenAI (openAIStreamLoop stream 0).1 = [] := by
      unfold streamedFinishOpenAI
      rw [h4]
    rw [hL]
    have hmid : streamedFinishOpenAI
        (if (convertVSCodeToolCallsToOpenAI (some (fragmentToolCalls stream))).length > 0
          then [OpenAIStreamChunk.toolCallsDelta
            (convertVSCodeToolCallsToOpenAI (some (fragmentToolCalls stream)))]
          else []) = [] := by
      by_cases hc :
        (convertVSCodeToolCallsToOpenAI (some (fragmentToolCalls stream))).length > 0
      · rw [if_pos hc]; rfl
      · rw [if_neg hc]; rfl
    rw [hmid]
    simp [streamedFinishOpenAI]

  · simp only [RequestHandlerV2.handleAnthropicStreamingResponse,
      RequestHandlerV2.handleAnthropicResponse, drainFragments_eq]
    rw [g1, g2, g3]
    rw [show (SSEFrame.mk "message_start" .messageStart ::
        SSEFrame.mk "content_block_start" (.contentBlockStartText 0) ::
        ((fragmentTexts stream).map (fun s =>
            SSEFrame.mk "content_block_delta" (.contentBlockDeltaText 0 s)) ++
          (SSEFrame.mk "content_block_stop" (.contentBlockStop 0) ::
            (anthToolBlocks 1
                (convertVSCodeToolCallsToAnthropic (some (fragmentToolCalls stream))) ++
              [SSEFrame.mk "message_delta"
                  (.messageDelta
                    (if (convertVSCodeToolCallsToAnthropic
                        (some (fragmentToolCalls stream))).length > 0
                      then "tool_use" else "end_turn")
                    (estimateTokensOfText (String.join (fragmentTexts stream)))),
               SSEFrame.mk "message_stop" .messageStop])))) =
      [SSEFrame.mk "message_start" .messageStart,
       SSEFrame.mk "content_block_start" (.contentBlockStartText 0)] ++
        ((fragmentTexts stream).map (fun s =>
            SSEFrame.mk "content_block_delta" (.contentBlockDeltaText 0 s)) ++
          ([SSEFrame.mk "content_block_stop" (.contentBlockStop 0)] ++
            (anthToolBlocks 1
                (convertVSCodeToolCallsToAnthropic (some (fragmentToolCalls stream))) ++
              [SSEFrame.mk "message_delta"
                  (.messageDelta
                    (if (convertVSCodeToolCallsToAnthropic
                        (some (fragmentToolCalls stream))).length > 0
                      then "tool_use" else "end_turn")
                    (estimateTokensOfText (String.join (fragmentTexts stream)))),
               SSEFrame.mk "message_stop" .messageStop]))) from rfl]
    rw [streamedTextAnthropic_append, streamedTextAnthropic_append,
      streamedTextAnthropic_append, streamedTextAnthropic_append,
      streamedTextAnthropic_deltas, anthToolBlocks_no_text]
    rw [textOfBlocks_append, textOfBlocks_toolUses]
    by_cases hJ : String.join (fragmentTexts stream) = "" <;>
      simp [hJ, streamedTextAnthropic, textOfBlocks, stringJoin_nil, stringJoin_cons]
  · simp only [RequestHandlerV2.handleAnthropicStreamingResponse,
      RequestHandlerV2.handleAnthropicResponse, drainFragments_eq]
    rw [g1, g2, g3]
    rw [show (SSEFrame.mk "message_start" .messageStart ::
        SSEFrame.mk "content_block_start" (.contentBlockStartText 0) ::
        ((fragmentTexts stream).map (fun s =>
            SSEFrame.mk "content_block_delta" (.contentBlockDeltaText 0 s)) ++
          (SSEFrame.mk "content_block_stop" (.contentBlockStop 0) ::
            (anthToolBlocks 1
                (convertVSCodeToolCallsToAnthropic (some (fragmentToolCalls stream))) ++
              [SSEFrame.mk "message_delta"
                  (.messageDelta
                    (if (convertVSCodeToolCallsToAnthropic
                        (some (fragmentToolCalls stream))).length > 0
                      then "tool_use" else "end_turn")
                    (estimateTokensOfText (String.join (fragmentTexts stream)))),
               SSEFrame.mk "message_stop" .messageStop])))) =
      [SSEFrame.mk "message_start" .messageStart,
       SSEFrame.mk "content_block_start" (.contentBlockStartText 0)] ++
        ((fragmentTexts stream).map (fun s =>
            SSEFrame.mk "content_block_delta" (.contentBlockDeltaText 0 s)) ++
          ([SSEFrame.mk "content_block_stop" (.contentBlockStop 0)] ++
            (anthToolBlocks 1
                (convertVSCodeToolCallsToAnthropic (some (fragmentToolCalls stream))) ++
              [SSEFrame.mk "message_delta"
                  (.messageDelta
                    (if (convertVSCodeToolCallsToAnthropic
                        (some (fragmentToolCalls stream))).length > 0
                      then "tool_use" else "end_turn")
                    (estimateTokensOfText (String.join (fragmentTexts stream)))),
               SSEFrame.mk "message_stop" .messageStop]))) from rfl]
    rw [streamedStopAnthropic_append, streamedStopAnthropic_append,
      streamedStopAnthropic_append, streamedStopAnthropic_append,
      streamedStopAnthropic_deltas, anthToolBlocks_no_stop]
    simp [streamedStopAnthropic]

/-- C5: every streamed Protocol B response is exactly the frame sequence
message_start, the text block open at index 0, the in-order text deltas, the
text block close, then per buffered tool call a block open, one
input_json_delta carrying the serialized input, and a block close, then one
message_delta carrying the final stop reason and the output-token estimate,
then message_stop, each as one named SSE frame; the block-start indices are
exactly 0, 1, ..., toolCallCount, strictly increasing and never reused. -/
theorem spec_c5_anthropic_stream_shape (stream : List ResponseFragment) :
    (RequestHandlerV2.handleAnthropicStreamingResponse stream =
      SSEFrame.mk "message_start" .messageStart ::
      SSEFrame.mk "content_block_start" (.contentBlockStartText 0) ::
      ((fragmentTexts stream).map (fun s =>
          SSEFrame.mk "content_block_delta" (.contentBlockDeltaText 0 s)) ++
        (SSEFrame.mk "content_block_stop" (.contentBlockStop 0) ::
          ((List.enumFrom 1
              (convertVSCodeToolCallsToAnthropic (some (fragmentToolCalls stream)))).flatMap
            (fun p =>
              [SSEFrame.mk "content_block_start"
                 (.contentBlockStartToolUse p.1 p.2.id p.2.name),
               SSEFrame.mk "content_block_delta"
                 (.contentBlockDeltaInputJson p.1 (jsonStringify p.2.input)),
               SSEFrame.mk "content_block_stop" (.contentBlockStop p.1)]) ++
            [SSEFrame.mk "message_delta"
               (.messageDelta
                 (if (fragmentToolCalls stream).length > 0 then "tool_use" else "end_turn")
                 (estimateTokensOfText (String.join (fragmentTexts stream)))),
             SSEFrame.mk "message_stop" .messageStop])))) ∧
    (streamedStartIndices (RequestHandlerV2.handleAnthropicStreamingResponse stream) =
      List.range' 0 ((fragmentToolCalls stream).length + 1)) ∧
    (streamedStartIndices
        (RequestHandlerV2.handleAnthropicStreamingResponse stream)).Pairwise (· < ·) := by
  obtain ⟨g1, g2, g3⟩ := anthStreamLoop_spec stream 0
  have hset : RequestHandlerV2.handleAnthropicStreamingResponse stream =
      SSEFrame.mk "message_start" .messageStart ::
      SSEFrame.mk "content_block_start" (.contentBlockStartText 0) ::
      ((fragmentTexts stream).map (fun s =>
          SSEFrame.mk "content_block_delta" (.contentBlockDeltaText 0 s)) ++
        (SSEFrame.mk "content_block_stop" (.contentBlockStop 0) ::
          (anthToolBlocks 1
              (convertVSCodeToolCallsToAnthropic (some (fragmentToolCalls stream))) ++
            [SSEFrame.mk "message_delta"
               (.messageDelta
                 (if (fragmentToolCalls stream).length > 0 then "tool_use" else "end_turn")
                 (estimateTokensOfText (String.join (fragmentTexts stream)))),
             SSEFrame.mk "message_stop" .messageStop]))) := by
    simp only [RequestHandlerV2.handleAnthropicStreamingResponse]
    rw [g1, g2, g3]
    simp only [convertAnth_length_pos]
  have hidx : streamedStartIndices (RequestHandlerV2.handleAnthropicStreamingResponse stream) =
      List.range' 0 ((fragmentToolCalls stream).length + 1) := by
    rw [hset]
    rw [show (SSEFrame.mk "message_start" .messageStart ::
        SSEFrame.mk "content_block_start" (.contentBlockStartText 0) ::
        ((fragmentTexts stream).map (fun s =>
            SSEFrame.mk "content_block_delta" (.contentBlockDeltaText 0 s)) ++
          (SSEFrame.mk "content_block_stop" (.contentBlockStop 0) ::
            (anthToolBlocks 1
                (convertVSCodeToolCallsToAnthropic (some (fragmentToolCalls stream))) ++
              [SSEFrame.mk "message_delta"
                 (.messageDelta
                   (if (fragmentToolCalls stream).length > 0 then "tool_use" else "end_turn")
                   (estimateTokensOfText (String.join (fragmentTexts stream)))),
               SSEFrame.mk "message_stop" .messageStop])))) =
      [SSEFrame.mk "message_start" .messageStart] ++
      ([SSEFrame.mk "content_block_start" (.contentBlockStartText 0)] ++
        ((fragmentTexts stream).map (fun s =>
            SSEFrame.mk "content_block_delta" (.contentBlockDeltaText 0 s)) ++
          ([SSEFrame.mk "content_block_stop" (.contentBlockStop 0)] ++
            (anthToolBlocks 1
                (convertVSCodeToolCallsToAnthropic (some (fragmentToolCalls stream))) ++
              [SSEFrame.mk "message_delta"
                 (.messageDelta
                   (if (fragmentToolCalls stream).length > 0 then "tool_use" else "end_turn")
                   (estimateTokensOfText (String.join (fragmentTexts stream)))),
               SSEFrame.mk "message_stop" .messageStop])))) from rfl]
    rw [streamedStartIndices_append, streamedStartIndices_append,
      streamedStartIndices_append, streamedStartIndices_append,
      streamedStartIndices_append, streamedStartIndices_deltas,
      anthToolBlocks_startIndices]
    have hc : (convertVSCodeToolCallsToAnthropic (some (fragmentToolCalls stream))).length =
        (fragmentToolCalls stream).length := by
      simp [convertVSCodeToolCallsToAnthropic]
    rw [hc]
    rw [List.range'_succ]
    simp [streamedStartIndices]
  refine ⟨?_, hidx, ?_⟩
  · rw [hset, anthToolBlocks_eq]
  · rw [hidx]
    exact List.pairwise_lt_range' 0 ((fragmentToolCalls stream).length + 1)

/-- C6 witness: requesting "gpt-4" against the one-model list selects the
exactly matching model. -/
theorem spec_c6_select_model_witness :
    ∃ m, RequestHandler.selectModel exModels "gpt-4" = some m ∧ m ∈ exModels ∧
      m.id = "gpt-4" :=
  (spec_c6_select_model exModels "gpt-4").1
    ⟨{ id := "gpt-4", family := "gpt-4" }, by decide, rfl⟩

/-- C7 witness: the concrete system message is converted to a user message
with the system marker prefix, and a non-empty top-level system field is
prepended as a synthetic marked first message. -/
theorem spec_c7_message_conversion_witness :
    ((RequestHandler.convertOpenAIMessagesToVSCode exOpenAIMessages)[0]? =
      some (LanguageModelChatMessage.user
        ("[SYSTEM] " ++ contentText (WireContent.str "be nice")))) ∧
    (RequestHandler.convertAnthropicMessagesToVSCode [] "be nice" =
      LanguageModelChatMessage.user ("[SYSTEM] " ++ "be nice") ::
        RequestHandler.convertAnthropicMessagesToVSCode [] "") :=
  ⟨(spec_c7_message_conversion exOpenAIMessages [] "be nice" 0).1
      { role := "system", content := .str "be nice" } rfl rfl,
   (spec_c7_message_conversion exOpenAIMessages [] "be nice" 0).2.1 (by decide)⟩

/-- C8 witness: the description-less Anthropic tool converts with its own name
as the description, the converted description is not empty, and the
description-less OpenAI tool converts with an absent description. -/
theorem spec_c8_tool_description_default_witness :
    (((RequestHandlerV2.convertAnthropicToolsToVSCode (some exAnthTools))[0]?).map
        (fun t => t.description) =
      some (some (if "get_weather" = "" then "no description available" else "get_weather"))) ∧
    ({ name := "get_weather", description := some "get_weather",
       inputSchema := Json.null : LanguageModelChatTool }.description ≠ some "") ∧
    (((RequestHandler.convertOpenAIToolsToVSCode (some exOpenAITools))[0]?).map
        (fun t => t.description) = some none) :=
  ⟨(spec_c8_tool_description_default exAnthTools exOpenAITools 0).1
      { name := "get_weather", description := none, input_schema := Json.null }
      rfl (Or.inl rfl),
   (spec_c8_tool_description_default exAnthTools exOpenAITools 0).2.1
      { name := "get_weather", description := some "get_weather", inputSchema := Json.null }
      rfl,
   (spec_c8_tool_description_default exAnthTools exOpenAITools 0).2.2
      { function := { name := "get_weather", description := none, parameters := Json.null } }
      rfl⟩
